import Mathlib

/-!
# Verification of the HDF5 back end of nix

A shallow embedding of the index arithmetic of `NDBuffer`
(`src/hdf5/NDBuffer.cpp`), of the linked-array check of `DataTagHDF5`
(`src/hdf5/DataTagHDF5.cpp`), of the dimension registry of `DataArrayHDF5`
(`src/hdf5/DataArrayHDF5.cpp`), of the type catalog (`src/hdf5/DataType.cpp`)
and of the attribute and dataset templates of `Group`
(`include/nix/hdf5/Group.hpp`), followed by the theorems that settle the
claims made about them.

Conventions.  `size_t` and `hsize_t` values are natural numbers reduced modulo
`2^64` after every arithmetic operation.  A function that can throw returns
`Except`; a method that mutates the store returns the store it leaves behind
together with its outcome.
-/

namespace Nix

/-! ## Machine words -/

/-- The number of values of a 64-bit unsigned word (`size_t`, `hsize_t`). -/
def wordMod : Nat := 2 ^ 64

/-! ## DataType.cpp -/

/-- Modelled from the spec: the header declaring `enum class DataType` is not
among the sources; the element types are the ten kinds that `DataType.cpp`
dispatches on together with the text kind of the data model. -/
inductive DataType where
  | Int8 | Int16 | Int32 | Int64
  | UInt8 | UInt16 | UInt32 | UInt64
  | Float | Double
  | Text
  deriving DecidableEq, Repr

/-- The function `data_type_to_size`: byte width of an element type; the
`default:` branch throws `std::invalid_argument`. -/
def data_type_to_size : DataType → Except String Nat
  | .Int8 | .UInt8 => .ok 1
  | .Int16 | .UInt16 => .ok 2
  | .Int32 | .UInt32 | .Float => .ok 4
  | .Int64 | .UInt64 | .Double => .ok 8
  | .Text => .error "Unkown DataType"

/-! ## DataType.cpp: the storage and memory encodings -/

/-- The predefined HDF5 types that `DataType.cpp` names: the little-endian
file encodings and the native memory encodings. -/
inductive H5Type where
  | STD_I8LE | STD_I16LE | STD_I32LE | STD_I64LE
  | STD_U8LE | STD_U16LE | STD_U32LE | STD_U64LE
  | IEEE_F32LE | IEEE_F64LE
  | NATIVE_INT8 | NATIVE_INT16 | NATIVE_INT32 | NATIVE_INT64
  | NATIVE_UINT8 | NATIVE_UINT16 | NATIVE_UINT32 | NATIVE_UINT64
  | NATIVE_FLOAT | NATIVE_DOUBLE
  deriving DecidableEq, Repr

/-- The function `data_type_to_h5_filetype`; the `default:` branch throws
`std::invalid_argument`. -/
def data_type_to_h5_filetype : DataType → Except String H5Type
  | .Int8 => .ok .STD_I8LE
  | .Int16 => .ok .STD_I16LE
  | .Int32 => .ok .STD_I32LE
  | .Int64 => .ok .STD_I64LE
  | .UInt8 => .ok .STD_U8LE
  | .UInt16 => .ok .STD_U16LE
  | .UInt32 => .ok .STD_U32LE
  | .UInt64 => .ok .STD_U64LE
  | .Float => .ok .IEEE_F32LE
  | .Double => .ok .IEEE_F64LE
  | .Text => .error "Unkown DataType"

/-- The function `data_type_to_h5_memtype`; the `default:` branch throws
`std::invalid_argument`. -/
def data_type_to_h5_memtype : DataType → Except String H5Type
  | .Int8 => .ok .NATIVE_INT8
  | .Int16 => .ok .NATIVE_INT16
  | .Int32 => .ok .NATIVE_INT32
  | .Int64 => .ok .NATIVE_INT64
  | .UInt8 => .ok .NATIVE_UINT8
  | .UInt16 => .ok .NATIVE_UINT16
  | .UInt32 => .ok .NATIVE_UINT32
  | .UInt64 => .ok .NATIVE_UINT64
  | .Float => .ok .NATIVE_FLOAT
  | .Double => .ok .NATIVE_DOUBLE
  | .Text => .error "Unkown DataType"

/-- The element kind that a predefined HDF5 type encodes. -/
def H5Type.kind : H5Type → DataType
  | .STD_I8LE | .NATIVE_INT8 => .Int8
  | .STD_I16LE | .NATIVE_INT16 => .Int16
  | .STD_I32LE | .NATIVE_INT32 => .Int32
  | .STD_I64LE | .NATIVE_INT64 => .Int64
  | .STD_U8LE | .NATIVE_UINT8 => .UInt8
  | .STD_U16LE | .NATIVE_UINT16 => .UInt16
  | .STD_U32LE | .NATIVE_UINT32 => .UInt32
  | .STD_U64LE | .NATIVE_UINT64 => .UInt64
  | .IEEE_F32LE | .NATIVE_FLOAT => .Float
  | .IEEE_F64LE | .NATIVE_DOUBLE => .Double

/-- The byte width that the data model gives the numeric kinds: 1, 2, 4 or 8
for the 8-, 16-, 32- and 64-bit kinds; none for text. -/
def numericWidth : DataType → Option Nat
  | .Int8 | .UInt8 => some 1
  | .Int16 | .UInt16 => some 2
  | .Int32 | .UInt32 | .Float => some 4
  | .Int64 | .UInt64 | .Double => some 8
  | .Text => none

/-! ## NDBuffer.cpp -/

/-- Modelled from the spec: `PSize::nelms` (header not among the sources), the
element count of a shape, the product of its extents, in 64-bit arithmetic. -/
def nelms (dims : List Nat) : Nat :=
  dims.foldl (fun acc e => (acc * e) % wordMod) 1

/-- Modelled from the spec: `PSize::dot` (header not among the sources), the dot
product of two size vectors, accumulated in 64-bit arithmetic; it is defined
for vectors of equal length only. -/
def dot (a b : List Nat) : Option Nat :=
  if a.length = b.length then
    some ((a.zip b).foldl (fun res p => (res + (p.1 * p.2) % wordMod) % wordMod) 0)
  else
    none

/-- The class `NDBuffer`: element type, extents (the member `extends`), cached
strides and the size in bytes of the byte store `dstore`. -/
structure NDBuffer where
  dataType : DataType
  extents : List Nat
  strides : List Nat
  dstore : Nat
  deriving DecidableEq, Repr

/-- The loop of `NDBuffer::calc_strides`:
`for (i = 1; i < _rank; i++) { lst = _rank - i; cur = lst - 1;
strides[cur] = strides[lst] * extends[lst]; }`.
The first argument bounds the number of iterations. -/
def calc_strides_loop (extents : List Nat) (rank : Nat) :
    Nat → Nat → List Nat → List Nat
  | 0, _, strides => strides
  | fuel + 1, i, strides =>
    if i < rank then
      let lst := rank - i
      let cur := lst - 1
      calc_strides_loop extents rank fuel (i + 1)
        (strides.set cur ((strides.getD lst 0 * extents.getD lst 0) % wordMod))
    else
      strides

/-- The method `NDBuffer::calc_strides` as a function of the extents:
`strides = PSize(_rank, 1)` followed by the loop, which runs `_rank - 1`
times. -/
def calc_strides (extents : List Nat) : List Nat :=
  calc_strides_loop extents extents.length extents.length 1
    (List.replicate extents.length 1)

/-- The method `NDBuffer::allocate_space`: sizes the byte store and recomputes
the strides from the current extents. -/
def NDBuffer.allocate_space (b : NDBuffer) : Except String NDBuffer :=
  match data_type_to_size b.dataType with
  | .error e => .error e
  | .ok type_size =>
    .ok { b with dstore := (nelms b.extents * type_size) % wordMod,
                 strides := calc_strides b.extents }

/-- The constructor `NDBuffer::NDBuffer(dtype, dims)`. -/
def NDBuffer.create (dtype : DataType) (dims : List Nat) : Except String NDBuffer :=
  NDBuffer.allocate_space { dataType := dtype, extents := dims, strides := [], dstore := 0 }

/-- The method `NDBuffer::resize`. -/
def NDBuffer.resize (b : NDBuffer) (new_size : List Nat) : Except String NDBuffer :=
  NDBuffer.allocate_space { b with extents := new_size }

/-- The method `NDBuffer::sub2index`: `strides.dot(sub)`. -/
def NDBuffer.sub2index (b : NDBuffer) (sub : List Nat) : Option Nat :=
  dot b.strides sub

/-- The row-major linear index in exact arithmetic, as the data model words
it: the sum over the axes `i` of `sub[i]` times the product of the extents of
the axes after `i`. -/
def rowMajorIndex : List Nat → List Nat → Nat
  | _ :: es, s :: ss => s * es.prod + rowMajorIndex es ss
  | _, _ => 0

/-- The stride of axis `j` in closed form: the product of the extents of the
axes after `j`, reduced to a 64-bit word. -/
def strideAt (extents : List Nat) (j : Nat) : Nat :=
  (extents.drop (j + 1)).prod % wordMod

/-! ## DataTagHDF5.cpp -/

deriving instance DecidableEq for Except

/-- What can go wrong in a call: a C++ exception with its message, or a read
of `shape()[index]` past the end of the extent list of a `multi_array`, whose
behaviour is undefined. -/
inductive Fault where
  | exception (msg : String)
  | outOfRange (index : Nat)
  deriving DecidableEq, Repr

/-- A `boost::multi_array<double,1>` as `checkDimensions` observes it: the
number of dimensions is fixed by the type and `shape()` points at an extent
list with a single entry. -/
structure MultiArray1 where
  extent : Nat
  deriving DecidableEq, Repr

/-- The member `num_dimensions()` of `boost::multi_array<double,1>`. -/
def MultiArray1.num_dimensions (_ : MultiArray1) : Nat := 1

/-- The member `shape()` of `boost::multi_array<double,1>`. -/
def MultiArray1.shape (m : MultiArray1) : List Nat := [m.extent]

/-- A data array of a block: its id and the extents of its stored data. -/
structure DataArray where
  id : String
  shape : List Nat
  deriving DecidableEq, Repr

/-- Modelled from the spec: `DataArray::getRawData` (header not among the
sources) reads the stored data into the destination, resizing it to the stored
shape; a destination with one dimension takes a stored shape of rank one, and
the read fails for any other rank. -/
def getRawData (a : DataArray) : Except String MultiArray1 :=
  match a.shape with
  | [n] => .ok { extent := n }
  | _ => .error "cannot change the rank of a multi_array"

/-- The loop of `DataTagHDF5::checkDimensions`:
`for (i = 0; i < *aData.shape(); i++) { valid = (aData.shape()[i] != bData.shape()[i]);
if (!valid) return valid; } return valid;`.
The first argument bounds the number of iterations. -/
def checkDimensions_loop (aShape bShape : List Nat) (bound : Nat) :
    Nat → Nat → Bool → Except Fault Bool
  | 0, _, valid => .ok valid
  | fuel + 1, i, valid =>
    if i < bound then
      match aShape.get? i, bShape.get? i with
      | some x, some y =>
        let valid := (x != y)
        if !valid then .ok valid
        else checkDimensions_loop aShape bShape bound fuel (i + 1) valid
      | none, _ => .error (.outOfRange i)
      | _, none => .error (.outOfRange i)
    else
      .ok valid

/-- The body of `DataTagHDF5::checkDimensions` after the two reads: the
comparison of `num_dimensions()` and the loop, which runs at most
`*aData.shape()` times. -/
def checkDimensionsRaw (aData bData : MultiArray1) : Except Fault Bool :=
  let valid := (aData.num_dimensions == bData.num_dimensions)
  if !valid then .ok valid
  else
    checkDimensions_loop aData.shape bData.shape (aData.shape.getD 0 0)
      (aData.shape.getD 0 0) 0 valid

/-- The method `DataTagHDF5::checkDimensions`; the read of the raw data is a
parameter. -/
def checkDimensions (raw : DataArray → Except String MultiArray1) (a b : DataArray) :
    Except Fault Bool :=
  match raw a with
  | .error e => .error (.exception e)
  | .ok aData =>
    match raw b with
    | .error e => .error (.exception e)
    | .ok bData => checkDimensionsRaw aData bData

/-- The full-shape agreement the data model asks of two linked arrays: same
rank and the same extent on every axis. -/
def shapesAgree (a b : DataArray) : Bool :=
  a.shape.length == b.shape.length &&
    (List.range a.shape.length).all (fun i => a.shape.get? i == b.shape.get? i)

/-- The stored state of a tag that the setters of positions and extents touch:
the attributes "positions" and "extents" of its group, absent or holding an
id, and the time of the last update. -/
structure TagState where
  positions : Option String
  extents : Option String
  updated_at : Nat
  deriving DecidableEq, Repr

/-- Modelled from the spec: `Block::hasDataArray` (the block is not among
the sources), whether the block holds an array with this id. -/
def hasDataArray (block : List DataArray) (id : String) : Bool :=
  (block.find? (fun a => a.id == id)).isSome

/-- Modelled from the spec: `Block::getDataArray` (the block is not among
the sources), the array of the block with this id. -/
def getDataArray (block : List DataArray) (id : String) : Option DataArray :=
  block.find? (fun a => a.id == id)

/-- The read `std::string id; group().getAttr(name, id);` of a text attribute
(Group.hpp:113-140 at a `std::string` destination): an absent attribute gives
`false` and leaves the string empty; for a present one the memory type of the
text kind is looked up with `data_type_to_h5_memtype` before the contents are
read, and that lookup throws when the catalog has no such type. -/
def readTextAttr (attr : Option String) : Except Fault String :=
  match attr with
  | none => .ok ""
  | some s =>
    match data_type_to_h5_memtype .Text with
    | .error e => .error (.exception e)
    | .ok _ => .ok s

/-- The write `group().setAttr(name, id)` of a text attribute (Group.hpp:86-109
at a `std::string` value): the attribute it leaves behind and the outcome.  An
absent attribute is created with the file type of the text kind
(`data_type_to_h5_filetype`), then the value is written with the memory type
of the text kind (`data_type_to_h5_memtype`); either lookup throws when the
catalog has no such type. -/
def writeTextAttr (attr : Option String) (s : String) : Option String × Except Fault Unit :=
  match attr with
  | some old =>
    match data_type_to_h5_memtype .Text with
    | .error e => (some old, .error (.exception e))
    | .ok _ => (some s, .ok ())
  | none =>
    match data_type_to_h5_filetype .Text with
    | .error e => (none, .error (.exception e))
    | .ok _ =>
      match data_type_to_h5_memtype .Text with
      | .error e => (some "", .error (.exception e))
      | .ok _ => (some s, .ok ())

/-- The method `DataTagHDF5::hasPositions`: the id is read from the attribute
"positions" and tested for a positive length. -/
def hasPositions (st : TagState) : Except Fault Bool :=
  match readTextAttr st.positions with
  | .error f => .error f
  | .ok posId => .ok (decide (posId.length > 0))

/-- The method `DataTagHDF5::hasExtents`: the id is read from the attribute
"extents" and tested for a positive length. -/
def hasExtents (st : TagState) : Except Fault Bool :=
  match readTextAttr st.extents with
  | .error f => .error f
  | .ok extId => .ok (decide (extId.length > 0))

/-- The bodies of the getters `positions()` and `extents()`: the id is read
from the attribute and looked up in the block. -/
def linkedArray (block : List DataArray) (attr : Option String) : Except Fault DataArray :=
  match readTextAttr attr with
  | .error f => .error f
  | .ok id =>
    if id.length > 0 && hasDataArray block id then
      match getDataArray block id with
      | some a => .ok a
      | none => .error (.exception ("Unable to find DataArray with id " ++ id ++ "!"))
    else
      .error (.exception ("Unable to find DataArray with id " ++ id ++ "!"))

/-- The consistency check inside the setter of positions:
`if (hasExtents()) { pos = block().getDataArray(id); ext = extents();
if (!checkDimensions(ext, pos)) throw ...; }`. -/
def positionsCheck (raw : DataArray → Except String MultiArray1) (block : List DataArray)
    (st : TagState) (id : String) : Except Fault Unit :=
  match hasExtents st with
  | .error f => .error f
  | .ok false => .ok ()
  | .ok true =>
    match getDataArray block id with
    | none => .error (.exception "no such DataArray")
    | some pos =>
      match linkedArray block st.extents with
      | .error f => .error f
      | .ok ext =>
        match checkDimensions raw ext pos with
        | .error f => .error f
        | .ok valid =>
          if !valid then .error (.exception
            "DataTagHDF5::positions: cannot set Positions because dimensionality of extent and position data do not match!")
          else .ok ()

/-- The setter `DataTagHDF5::positions(const string &id)`; `now` is the time
that `forceUpdatedAt` stores.  The result is the state left behind and the
outcome. -/
def setPositions (raw : DataArray → Except String MultiArray1) (block : List DataArray)
    (st : TagState) (id : String) (now : Nat) : TagState × Except Fault Unit :=
  if !hasDataArray block id then
    (st, .error (.exception
      "DataTagHDF5::extents: cannot set Extent because referenced DataArray does not exist!"))
  else
    match positionsCheck raw block st id with
    | .error f => (st, .error f)
    | .ok _ =>
      match writeTextAttr st.positions id with
      | (attr1, .error f) => ({ st with positions := attr1 }, .error f)
      | (attr1, .ok _) =>
        let st1 := { st with positions := attr1 }
        let st2 := { st1 with updated_at := now }
        (st2, .ok ())

/-- The consistency check inside the setter of extents:
`if (hasPositions()) { ext = block().getDataArray(extentsId); pos = positions();
if (!checkDimensions(ext, pos)) throw ...; }`. -/
def extentsCheck (raw : DataArray → Except String MultiArray1) (block : List DataArray)
    (st : TagState) (extentsId : String) : Except Fault Unit :=
  match hasPositions st with
  | .error f => .error f
  | .ok false => .ok ()
  | .ok true =>
    match getDataArray block extentsId with
    | none => .error (.exception "no such DataArray")
    | some ext =>
      match linkedArray block st.positions with
      | .error f => .error f
      | .ok pos =>
        match checkDimensions raw ext pos with
        | .error f => .error f
        | .ok valid =>
          if !valid then .error (.exception
            "DataTagHDF5::extents: cannot set Extent because dimensionality of extent and position data do not match!")
          else .ok ()

/-- The setter `DataTagHDF5::extents(const string &extentsId)`. -/
def setExtents (raw : DataArray → Except String MultiArray1) (block : List DataArray)
    (st : TagState) (extentsId : String) (now : Nat) : TagState × Except Fault Unit :=
  if !hasDataArray block extentsId then
    (st, .error (.exception
      "DataTagHDF5::extents: cannot set Extent because referenced DataArray does not exist!"))
  else
    match extentsCheck raw block st extentsId with
    | .error f => (st, .error f)
    | .ok _ =>
      match writeTextAttr st.extents extentsId with
      | (attr1, .error f) => ({ st with extents := attr1 }, .error f)
      | (attr1, .ok _) =>
        let st1 := { st with extents := attr1 }
        let st2 := { st1 with updated_at := now }
        (st2, .ok ())

/-! ## DataArrayHDF5.cpp: the dimension registry -/

/-- The enumeration `DimensionType`; the `else` branches that throw
"Invalid dimension type" are reached by none of its three values. -/
inductive DimensionType where
  | Set | Range | Sample
  deriving DecidableEq, Repr

/-- The child group of one dimension: the attribute "dimension_type", absent
on a group that was just created, and the other attributes it holds. -/
structure DimensionNode where
  dimension_type : Option DimensionType
  attrs : List (String × String)
  deriving DecidableEq, Repr

/-- The member `dimension_group`: its children in storage order.  A child is
named `util::numToStr(id)`; distinct ids have distinct names, and a child is
listed here under the id that its name denotes. -/
abbrev DimensionGroup := List (Nat × DimensionNode)

/-- The handle that `createDimension` and `getDimension` return: the id it was
built with and the variant of the class that wraps the child group. -/
structure Dimension where
  id : Nat
  type : DimensionType
  deriving DecidableEq, Repr

/-- The child stored under an id, if any. -/
def DimensionGroup.lookup : DimensionGroup → Nat → Option DimensionNode
  | [], _ => none
  | (k, c) :: g, id => if k = id then some c else DimensionGroup.lookup g id

/-- The ids under which the group has a child, in storage order. -/
def DimensionGroup.ids (g : DimensionGroup) : List Nat := g.map Prod.fst

/-- Modelled from the spec: `Group::hasGroup` (`hasChild`; Group.cpp is not
among the sources). -/
def DimensionGroup.hasGroup (g : DimensionGroup) (id : Nat) : Bool :=
  (g.lookup id).isSome

/-- Modelled from the spec: `Group::objectCount` (`childCount`), the number of
children. -/
def DimensionGroup.objectCount (g : DimensionGroup) : Nat := g.length

/-- Modelled from the spec: `Group::removeGroup` (`removeChild`). -/
def DimensionGroup.removeGroup (g : DimensionGroup) (id : Nat) : DimensionGroup :=
  g.filter (fun c => decide (c.1 ≠ id))

/-- Modelled from the spec: `Group::openGroup(name, true)` (`openChild` with
`createIfMissing`): opens the child, creating an empty one when it is
missing. -/
def DimensionGroup.openGroup (g : DimensionGroup) (id : Nat) : DimensionGroup :=
  if g.hasGroup id then g else g ++ [(id, { dimension_type := none, attrs := [] })]

/-- Modelled from the spec: `Group::renameGroup` (`renameChild`): fails
`NotFound` if the old name is absent and `AlreadyExists` if the new name is
present. -/
def DimensionGroup.renameGroup (g : DimensionGroup) (old_id new_id : Nat) :
    Except Fault DimensionGroup :=
  if !g.hasGroup old_id then .error (.exception "NotFound")
  else if g.hasGroup new_id then .error (.exception "AlreadyExists")
  else .ok (g.map (fun c => if c.1 = old_id then (new_id, c.2) else c))

/-- Modelled from the spec: the constructors of `SetDimensionHDF5`,
`RangeDimensionHDF5` and `SampledDimensionHDF5` (DimensionHDF5.cpp is not among
the sources) tag the child group with the discriminator of their variant. -/
def DimensionGroup.setType (g : DimensionGroup) (id : Nat) (t : DimensionType) :
    DimensionGroup :=
  g.map (fun c => if c.1 = id then (c.1, { c.2 with dimension_type := some t }) else c)

/-- The method `DataArrayHDF5::dimensionCount`. -/
def dimensionCount (g : DimensionGroup) : Nat := g.objectCount

/-- The read `dim_group.getAttr("dimension_type", dim_type_name)` followed by
`dimensionTypeFromStr`: an absent tag leaves the name empty, which names no
variant; for a present tag the memory type of the text kind is looked up with
`data_type_to_h5_memtype` before the name is read (Group.hpp:133-134), and that
lookup throws when the catalog has no such type. -/
def readTypeTag (c : DimensionNode) : Except Fault (Option DimensionType) :=
  match c.dimension_type with
  | none => .ok none
  | some t =>
    match data_type_to_h5_memtype .Text with
    | .error e => .error (.exception e)
    | .ok _ => .ok (some t)

/-- The method `DataArrayHDF5::getDimension`. -/
def getDimension (g : DimensionGroup) (id : Nat) : Except Fault Dimension :=
  match g.lookup id with
  | some c =>
    match readTypeTag c with
    | .error f => .error f
    | .ok (some t) => .ok { id := id, type := t }
    | .ok none => .error (.exception "Invalid dimension type")
  | none => .error (.exception "No such dimension")

/-- The id under which `createDimension` stores the new descriptor:
`if (id <= dim_count) id = dim_count + 1;`. -/
def createTarget (g : DimensionGroup) (id : Nat) : Nat :=
  if id ≤ dimensionCount g then dimensionCount g + 1 else id

/-- The method `DataArrayHDF5::createDimension`: the group it leaves behind and
the handle it returns. -/
def createDimension (g : DimensionGroup) (id : Nat) (type : DimensionType) :
    DimensionGroup × Dimension :=
  let dim_count := dimensionCount g
  let id := if id ≤ dim_count then dim_count + 1 else id
  let g1 := if g.hasGroup id then g.removeGroup id else g
  let g2 := g1.openGroup id
  let g3 := g2.setType id type
  (g3, { id := id, type := type })

/-- The loop of `DataArrayHDF5::removeDimension`:
`for (old_id = id + 1; old_id <= dim_count; old_id++) renameGroup(old_id, old_id - 1)`.
The first argument bounds the number of iterations. -/
def renumber_loop (dim_count : Nat) :
    Nat → Nat → DimensionGroup → DimensionGroup × Except Fault Unit
  | 0, _, g => (g, .ok ())
  | fuel + 1, old_id, g =>
    if old_id ≤ dim_count then
      match g.renameGroup old_id (old_id - 1) with
      | .error f => (g, .error f)
      | .ok g1 => renumber_loop dim_count fuel (old_id + 1) g1
    else
      (g, .ok ())

/-- The method `DataArrayHDF5::removeDimension`: the group it leaves behind and
the value it returns.  The loop runs `dim_count - id` times. -/
def removeDimension (g : DimensionGroup) (id : Nat) : DimensionGroup × Except Fault Bool :=
  let dim_count := dimensionCount g
  let deleted := g.hasGroup id
  let g1 := if deleted then g.removeGroup id else g
  if deleted && decide (id < dim_count) then
    match renumber_loop dim_count (dim_count - id) (id + 1) g1 with
    | (g2, .error f) => (g2, .error f)
    | (g2, .ok _) => (g2, .ok deleted)
  else
    (g1, .ok deleted)

/-- The loop of `DataArrayHDF5::dimensions`: for `i` from `0` below
`dim_count`, the descriptor of id `i + 1` is listed when a child of that name
exists. -/
def dimensions_loop (g : DimensionGroup) (dim_count : Nat) :
    Nat → Nat → List Dimension → Except Fault (List Dimension)
  | 0, _, acc => .ok acc
  | fuel + 1, i, acc =>
    if i < dim_count then
      if g.hasGroup (i + 1) then
        match getDimension g (i + 1) with
        | .error f => .error f
        | .ok d => dimensions_loop g dim_count fuel (i + 1) (acc ++ [d])
      else dimensions_loop g dim_count fuel (i + 1) acc
    else .ok acc

/-- The method `DataArrayHDF5::dimensions`. -/
def dimensions (g : DimensionGroup) : Except Fault (List Dimension) :=
  dimensions_loop g (dimensionCount g) (dimensionCount g) 0 []

/-- A call that changes the registry. -/
inductive RegistryOp where
  | create (requestedId : Nat) (type : DimensionType)
  | remove (id : Nat)
  deriving DecidableEq, Repr

/-- The registry after one call. -/
def applyOp (g : DimensionGroup) : RegistryOp → DimensionGroup
  | .create requestedId type => (createDimension g requestedId type).1
  | .remove id => (removeDimension g id).1

/-- The registry reached from the empty one by a sequence of calls. -/
def runOps (ops : List RegistryOp) : DimensionGroup := ops.foldl applyOp []

/-- The ids present are exactly `1, ..., n`, each once. -/
def IdsExactly (g : DimensionGroup) (n : Nat) : Prop :=
  g.ids.Perm (List.range' 1 n)

instance (g : DimensionGroup) (n : Nat) : Decidable (IdsExactly g n) := by
  unfold IdsExactly
  infer_instance

/-! ## Sample data -/

/-- A block with two arrays of shape `[10]`, one of shape `[7]`, one of shape
`[1]` and one of shape `[5]`. -/
def sampleBlock : List DataArray :=
  [{ id := "pos10", shape := [10] }, { id := "ext10", shape := [10] },
   { id := "ext7", shape := [7] }, { id := "one", shape := [1] },
   { id := "five", shape := [5] }]

/-- A tag as read from a store in which its attribute "positions" holds the id
"pos10" and its attribute "extents" is absent. -/
def tagWithPositions : TagState :=
  { positions := some "pos10", extents := none, updated_at := 1 }

/-- A tag as read from a store in which its attribute "extents" holds the id
"ext10" and its attribute "positions" is absent. -/
def tagWithExtents : TagState :=
  { positions := none, extents := some "ext10", updated_at := 1 }

/-! ## In-bounds subscripts -/

/-- A subscript vector is in bounds for a shape: same length, and every entry
below the extent of its axis. -/
def inBounds : List Nat → List Nat → Bool
  | [], [] => true
  | e :: es, s :: ss => decide (s < e) && inBounds es ss
  | _, _ => false

/-! ## Group.hpp: attributes and datasets of a container -/

/-- One element of a value or of a stored array. -/
inductive Elem where
  | num (v : Int)
  | text (s : String)
  deriving DecidableEq, Repr

/-- Modelled from the spec: the view that `Hydra` gives of a value (Hydra.hpp is
not among the sources): its element type, its shape and its elements in
row-major order. -/
structure Value where
  dtype : DataType
  shape : List Nat
  elems : List Elem
  deriving DecidableEq, Repr

/-- Modelled from the spec: an attribute of the backend, keyed by name in its
container: the file type, the shape and the stored elements. -/
structure Attribute where
  fileType : H5Type
  shape : List Nat
  elems : List Elem
  deriving DecidableEq, Repr

/-- Modelled from the spec: a growable dataset (DataSet.hpp is not among the
sources): element type, current shape, per-axis maximum (`none` is unbounded,
`H5S_UNLIMITED`), chunk shape and the stored elements. -/
structure DataSet where
  dtype : DataType
  shape : List Nat
  maxShape : List (Option Nat)
  chunks : List Nat
  elems : List Elem
  deriving DecidableEq, Repr

/-- The part of a container (`Group`) that the attribute and dataset
operations touch: its attributes and its datasets, by name, in storage
order. -/
structure Container where
  attrs : List (String × Attribute)
  datasets : List (String × DataSet)
  deriving DecidableEq, Repr

/-- What the data model leaves to the storage backend: the conversion of an
element between two different element types, and the overwrite of an
attribute by a value of equal rank and different extents. -/
structure Backend where
  convert : DataType → DataType → Elem → Elem
  writeOtherExtents : Attribute → Value → Except Fault Attribute

/-- The entry stored under a name, if any. -/
def assocGet {α : Type} : List (String × α) → String → Option α
  | [], _ => none
  | (k, a) :: l, name => if k = name then some a else assocGet l name

/-- The entry under a name replaced, every other entry left as it is. -/
def assocReplace {α : Type} (l : List (String × α)) (name : String) (a : α) :
    List (String × α) :=
  l.map (fun p => if p.1 = name then (p.1, a) else p)

/-- The names are pairwise different, in the attributes and in the datasets. -/
def Container.WF (c : Container) : Prop :=
  (c.attrs.map Prod.fst).Nodup ∧ (c.datasets.map Prod.fst).Nodup

instance (c : Container) : Decidable c.WF := by
  unfold Container.WF
  infer_instance

/-- The elements as the backend hands them over from one element type to
another: as they are when the types agree, converted otherwise. -/
def convertElems (b : Backend) (src dst : DataType) (elems : List Elem) : List Elem :=
  if src = dst then elems else elems.map (b.convert src dst)

/-- The element that fills storage that was never written. -/
def fillElem : DataType → Elem
  | .Text => .text ""
  | _ => .num 0

/-- Modelled from the spec: `Hydra::resize`, which resizes the destination to
the target shape in place. -/
def Value.resize (v : Value) (dims : List Nat) : Value :=
  { v with shape := dims,
           elems := (v.elems ++ List.replicate dims.prod (fillElem v.dtype)).take dims.prod }

/-- Modelled from the spec: `Group::hasAttr` (Group.cpp is not among the
sources). -/
def hasAttr (c : Container) (name : String) : Bool := (assocGet c.attrs name).isSome

/-- Modelled from the spec: `H5::Group::createAttribute`, a new attribute of
the given file type and shape, not yet written. -/
def createAttribute (c : Container) (name : String) (fileType : H5Type) (shape : List Nat) :
    Container :=
  { c with attrs := c.attrs ++
      [(name, { fileType := fileType, shape := shape,
                elems := List.replicate shape.prod (fillElem fileType.kind) })] }

/-- Modelled from the spec: `Group::writeAttr` (declared in Group.hpp, defined
in Group.cpp, which is not among the sources): the overwrite of an existing
attribute.  It fails with ShapeMismatch when the rank of the value differs from
the rank of the attribute; with equal shapes it replaces the contents; with
equal rank and different extents the outcome is the backend's, confined to
this attribute. -/
def writeAttr (b : Backend) (c : Container) (name : String) (memType : H5Type)
    (value : Value) : Container × Except Fault Unit :=
  match assocGet c.attrs name with
  | none => (c, .error (.exception "NotFound"))
  | some attr =>
    if value.shape.length ≠ attr.shape.length then (c, .error (.exception "ShapeMismatch"))
    else if value.shape = attr.shape then
      let attr1 : Attribute :=
        { attr with elems := convertElems b memType.kind attr.fileType.kind value.elems }
      ({ c with attrs := assocReplace c.attrs name attr1 }, .ok ())
    else
      match b.writeOtherExtents attr value with
      | .error f => (c, .error f)
      | .ok attr1 => ({ c with attrs := assocReplace c.attrs name attr1 }, .ok ())

/-- The template `Group::setAttr`: the container it leaves behind and its
outcome.  An absent attribute is created with the file type of the value's
element type; the value is then written with its memory type. -/
def setAttr (b : Backend) (c : Container) (name : String) (value : Value) :
    Container × Except Fault Unit :=
  let dtype := value.dtype
  let shape := value.shape
  if hasAttr c name then
    match data_type_to_h5_memtype dtype with
    | .error e => (c, .error (.exception e))
    | .ok memType => writeAttr b c name memType value
  else
    match data_type_to_h5_filetype dtype with
    | .error e => (c, .error (.exception e))
    | .ok fileType =>
      let c1 := createAttribute c name fileType shape
      match data_type_to_h5_memtype dtype with
      | .error e => (c1, .error (.exception e))
      | .ok memType => writeAttr b c1 name memType value

/-- The template `Group::getAttr`: the destination it leaves behind and its
outcome.  An absent attribute gives `false` before the destination is touched;
otherwise the destination is resized to the stored shape and filled. -/
def getAttr (b : Backend) (c : Container) (name : String) (value : Value) :
    Value × Except Fault Bool :=
  if !hasAttr c name then (value, .ok false)
  else
    match assocGet c.attrs name with
    | none => (value, .error (.exception "NotFound"))
    | some attr =>
      let value1 := value.resize attr.shape
      match data_type_to_h5_memtype value1.dtype with
      | .error e => (value1, .error (.exception e))
      | .ok memType =>
        ({ value1 with elems := convertElems b attr.fileType.kind memType.kind attr.elems },
          .ok true)

/-- Modelled from the spec: `Group::hasData` (`hasDataset`). -/
def hasData (c : Container) (name : String) : Bool := (assocGet c.datasets name).isSome

/-- Modelled from the spec: `DataSet::create`, a dataset of the given element
type, shape, maximum and chunk shape, not yet written. -/
def DataSet.create (dtype : DataType) (shape : List Nat) (maxsize : List (Option Nat))
    (chunks : List Nat) : DataSet :=
  { dtype := dtype, shape := shape, maxShape := maxsize, chunks := chunks,
    elems := List.replicate shape.prod (fillElem dtype) }

/-- Every extent of the first shape is at most the extent of the same axis of
the second shape, and the ranks agree. -/
def shapeLe : List Nat → List Nat → Bool
  | [], [] => true
  | c :: cs, s :: ss => decide (c ≤ s) && shapeLe cs ss
  | _, _ => false

/-- Every extent of the shape is at most the maximum of its axis, where one is
set. -/
def withinMax : List (Option Nat) → List Nat → Bool
  | [], [] => true
  | none :: ms, _ :: ss => withinMax ms ss
  | some m :: ms, s :: ss => decide (s ≤ m) && withinMax ms ss
  | _, _ => false

/-- The subscript of a linear index in a shape, in row-major order. -/
def unravel : List Nat → Nat → List Nat
  | [], _ => []
  | _ :: es, idx => (idx / es.prod) :: unravel es (idx % es.prod)

/-- The elements of an array after it grew from one shape to another: an
element keeps its subscript, new cells hold the fill element. -/
def relayout (old new : List Nat) (elems : List Elem) (fill : Elem) : List Elem :=
  (List.range new.prod).map (fun idx =>
    if inBounds old (unravel new idx) then elems.getD (rowMajorIndex old (unravel new idx)) fill
    else fill)

/-- Modelled from the spec: `DataSet::extend`: grows the extents to the new
shape; every axis must satisfy `newShape[i] >= currentShape[i]` and, if a
maximum is set, `newShape[i] <= max[i]`; violating either fails with
InvalidResize. -/
def DataSet.extend (ds : DataSet) (newShape : List Nat) : Except Fault DataSet :=
  if shapeLe ds.shape newShape && withinMax ds.maxShape newShape then
    .ok { ds with shape := newShape,
                  elems := relayout ds.shape newShape ds.elems (fillElem ds.dtype) }
  else .error (.exception "InvalidResize")

/-- Modelled from the spec: `DataSet::set`, the bulk write of a whole value
using the active shape. -/
def DataSet.set (b : Backend) (ds : DataSet) (dtype : DataType) (shape : List Nat)
    (elems : List Elem) : Except Fault DataSet :=
  if shape = ds.shape then .ok { ds with elems := convertElems b dtype ds.dtype elems }
  else .error (.exception "ShapeMismatch")

/-- The template `Group::setData`: the container it leaves behind and its
outcome.  An absent dataset is created with an unbounded maximum and a chunk of
one element on every axis; a present one is extended to the shape of the
value; the value is then written. -/
def setData (b : Backend) (c : Container) (name : String) (value : Value) :
    Container × Except Fault Unit :=
  let dtype := value.dtype
  let shape := value.shape
  if !hasData c name then
    let maxsize : List (Option Nat) := List.replicate shape.length none
    let chunks := List.replicate shape.length 1
    let ds := DataSet.create dtype shape maxsize chunks
    let c1 := { c with datasets := c.datasets ++ [(name, ds)] }
    match DataSet.set b ds dtype shape value.elems with
    | .error f => (c1, .error f)
    | .ok ds1 => ({ c1 with datasets := assocReplace c1.datasets name ds1 }, .ok ())
  else
    match assocGet c.datasets name with
    | none => (c, .error (.exception "NotFound"))
    | some ds =>
      match ds.extend shape with
      | .error f => (c, .error f)
      | .ok ds1 =>
        let c1 := { c with datasets := assocReplace c.datasets name ds1 }
        match DataSet.set b ds1 dtype shape value.elems with
        | .error f => (c1, .error f)
        | .ok ds2 => ({ c1 with datasets := assocReplace c1.datasets name ds2 }, .ok ())

/-- The template `Group::getData`: the destination it leaves behind and its
outcome.  An absent dataset gives `false` before the destination is touched;
otherwise the destination is resized to the current shape and filled. -/
def getData (b : Backend) (c : Container) (name : String) (value : Value) :
    Value × Except Fault Bool :=
  if !hasData c name then (value, .ok false)
  else
    match assocGet c.datasets name with
    | none => (value, .error (.exception "NotFound"))
    | some ds =>
      let value1 := value.resize ds.shape
      ({ value1 with elems := convertElems b ds.dtype value1.dtype ds.elems }, .ok true)

/-- A backend for the examples: it hands elements over as they are and
refuses to overwrite an attribute by a value of other extents. -/
def sampleBackend : Backend :=
  { convert := fun _ _ e => e,
    writeOtherExtents := fun _ _ => .error (.exception "ShapeMismatch") }

/-- The container without attributes and datasets. -/
def emptyContainer : Container := { attrs := [], datasets := [] }

/-- A container whose dataset "data" has the shape `[5]` and the maximum
`[8]`. -/
def boundedContainer : Container :=
  { attrs := [],
    datasets := [("data",
      { dtype := .Int32, shape := [5], maxShape := [some 8], chunks := [1],
        elems := [.num 0, .num 0, .num 0, .num 0, .num 0] })] }

/-- The `2 x 2` dataset of doubles that `setData` creates. -/
def squareData : DataSet :=
  { dtype := .Double, shape := [2, 2], maxShape := [none, none], chunks := [1, 1],
    elems := [.num 1, .num 2, .num 3, .num 4] }

/-- A container whose only dataset is the `2 x 2` dataset "data". -/
def squareContainer : Container := { attrs := [], datasets := [("data", squareData)] }

/-- A `2 x 2` value of doubles. -/
def squareValue : Value :=
  { dtype := .Double, shape := [2, 2], elems := [.num 1, .num 2, .num 3, .num 4] }

/-- A `2 x 3` value of doubles. -/
def wideValue : Value :=
  { dtype := .Double, shape := [2, 3],
    elems := [.num 1, .num 2, .num 3, .num 4, .num 5, .num 6] }

/-- A `1 x 3` value of doubles. -/
def flatValue : Value :=
  { dtype := .Double, shape := [1, 3], elems := [.num 1, .num 2, .num 3] }

/-- A value of ten 32-bit integers. -/
def tenValue : Value :=
  { dtype := .Int32, shape := [10],
    elems := [.num 1, .num 1, .num 1, .num 1, .num 1, .num 1, .num 1, .num 1, .num 1, .num 1] }

/-- A container whose attribute "gain" holds two 32-bit integers. -/
def gainContainer : Container :=
  { attrs := [("gain", { fileType := .STD_I32LE, shape := [2], elems := [.num 5, .num 6] })],
    datasets := [] }

/-- A scalar 32-bit integer. -/
def intScalar (v : Int) : Value := { dtype := .Int32, shape := [], elems := [.num v] }

/-- A scalar text. -/
def textScalar (s : String) : Value := { dtype := .Text, shape := [], elems := [.text s] }

/-! # Theorems -/

/-! ## Strides and linear index (NDBuffer) -/

theorem wordMod_pos : 0 < wordMod := by decide

theorem strideAt_step (extents : List Nat) (j : Nat) (h : j + 1 < extents.length) :
    strideAt extents j = (strideAt extents (j + 1) * extents.getD (j + 1) 0) % wordMod := by
  unfold strideAt
  have hd : extents.drop (j + 1) = extents.getD (j + 1) 0 :: extents.drop (j + 1 + 1) := by
    rw [List.getD_eq_getElem _ _ h]
    exact List.drop_eq_getElem_cons h
  rw [hd, List.prod_cons, Nat.mul_comm]
  exact Nat.mod_mul_mod.symm

theorem strideAt_last (extents : List Nat) (j : Nat) (h : j + 1 = extents.length) :
    strideAt extents j = 1 := by
  unfold strideAt
  rw [h, List.drop_length]
  decide

/-- The invariant of the loop of `calc_strides`: the entries from `rank - i` on
hold their final value; with enough iterations left, all entries do at the
end. -/
theorem calc_strides_loop_spec (extents : List Nat) :
    ∀ (fuel i : Nat) (strides : List Nat), 1 ≤ i → strides.length = extents.length →
      extents.length ≤ i + fuel →
      (∀ j, extents.length - i ≤ j → j < extents.length →
        strides.getD j 0 = strideAt extents j) →
      (calc_strides_loop extents extents.length fuel i strides).length = extents.length ∧
      ∀ j, j < extents.length →
        (calc_strides_loop extents extents.length fuel i strides).getD j 0
          = strideAt extents j := by
  intro fuel
  induction fuel with
  | zero =>
    intro i strides _ hlen hfuel hinv
    refine ⟨hlen, fun j hj => hinv j (by omega) hj⟩
  | succ fuel ih =>
    intro i strides hi hlen hfuel hinv
    unfold calc_strides_loop
    by_cases hlt : i < extents.length
    · simp only [hlt, if_true]
      apply ih (i + 1) _ (by omega) (by simp [hlen]) (by omega)
      intro j hj1 hj2
      by_cases hcur : j = extents.length - i - 1
      · subst hcur
        rw [List.getD_eq_getElem _ _ (by simp [hlen]; omega)]
        simp only [List.getElem_set_self]
        have h2 : extents.length - i - 1 + 1 = extents.length - i := by omega
        have h3 := strideAt_step extents (extents.length - i - 1) (by omega)
        rw [h2] at h3
        rw [h3, hinv (extents.length - i) (le_refl _) (by omega)]
      · have hne : extents.length - i - 1 ≠ j := fun h => hcur h.symm
        rw [List.getD_eq_getElem?_getD, List.getElem?_set_ne hne, ← List.getD_eq_getElem?_getD]
        exact hinv j (by omega) hj2
    · simp only [hlt, if_false]
      exact ⟨hlen, fun j hj => hinv j (by omega) hj⟩

theorem calc_strides_spec (extents : List Nat) :
    (calc_strides extents).length = extents.length ∧
    ∀ j, j < extents.length → (calc_strides extents).getD j 0 = strideAt extents j := by
  unfold calc_strides
  apply calc_strides_loop_spec extents _ 1 _ (le_refl 1) (by simp) (by omega)
  intro j hj1 hj2
  rw [List.getD_eq_getElem _ _ (by simpa using hj2)]
  simp only [List.getElem_replicate]
  exact (strideAt_last extents j (by omega)).symm

theorem calc_strides_nil : calc_strides [] = [] := by decide

theorem calc_strides_cons (x : Nat) (es : List Nat) :
    calc_strides (x :: es) = (es.prod % wordMod) :: calc_strides es := by
  have h1 := calc_strides_spec (x :: es)
  have h2 := calc_strides_spec es
  apply List.ext_getElem
  · simp [h1.1, h2.1]
  · intro n hn1 hn2
    have hn : n < (x :: es).length := by rw [← h1.1]; exact hn1
    rw [← List.getD_eq_getElem _ 0 hn1, ← List.getD_eq_getElem _ 0 hn2, h1.2 n hn]
    cases n with
    | zero => simp [strideAt]
    | succ m =>
      have hm : m < es.length := by simpa using hn
      rw [List.getD_cons_succ, h2.2 m hm]
      simp [strideAt]

/-- The accumulation of `dot` over the strides of a shape is the exact
row-major index reduced to a 64-bit word. -/
theorem dot_fold_spec (es : List Nat) :
    ∀ (sub : List Nat) (acc : Nat), sub.length = es.length → acc < wordMod →
      ((calc_strides es).zip sub).foldl
          (fun res p => (res + (p.1 * p.2) % wordMod) % wordMod) acc
        = (acc + rowMajorIndex es sub) % wordMod := by
  induction es with
  | nil =>
    intro sub acc hlen hacc
    cases sub with
    | nil => simp [calc_strides_nil, rowMajorIndex, Nat.mod_eq_of_lt hacc]
    | cons s ss => simp at hlen
  | cons x es ih =>
    intro sub acc hlen hacc
    cases sub with
    | nil => simp at hlen
    | cons s ss =>
      have hl : ss.length = es.length := by simpa using hlen
      rw [calc_strides_cons, List.zip_cons_cons, List.foldl_cons,
        ih ss _ hl (Nat.mod_lt _ wordMod_pos)]
      simp only [rowMajorIndex]
      rw [Nat.mul_comm s es.prod, ← Nat.add_assoc]
      conv_rhs => rw [Nat.add_mod, Nat.add_mod acc, Nat.mul_mod]
      conv_lhs => rw [Nat.add_mod, Nat.mod_mod, Nat.mul_mod, Nat.mod_mod]
      rw [Nat.mod_eq_of_lt hacc]

theorem dot_calc_strides (es sub : List Nat) (hlen : sub.length = es.length) :
    dot (calc_strides es) sub = some (rowMajorIndex es sub % wordMod) := by
  unfold dot
  rw [if_pos (by rw [(calc_strides_spec _).1, hlen]),
    dot_fold_spec _ _ _ hlen wordMod_pos, Nat.zero_add]

theorem allocate_space_ok (b b1 : NDBuffer) (h : b.allocate_space = .ok b1) :
    b1.strides = calc_strides b.extents ∧ b1.extents = b.extents := by
  unfold NDBuffer.allocate_space at h
  cases hs : data_type_to_size b.dataType with
  | error e => simp [hs] at h
  | ok sz =>
    simp only [hs] at h
    cases h
    exact ⟨rfl, rfl⟩

theorem allocate_space_total (b : NDBuffer) (h : b.dataType ≠ .Text) :
    ∃ b1, b.allocate_space = .ok b1 := by
  unfold NDBuffer.allocate_space
  cases hd : b.dataType
  case Text => exact absurd hd h
  all_goals simp [data_type_to_size]

/-- C1, as stated, fails: the shape `[2, 2^63, 2]` gets the strides
`[0, 2, 1]`, and the stride `0` of axis 0 is not the product `2 * 2^63` of the
stride and the extent of axis 1. -/
theorem calc_strides_exact_product_fails :
    calc_strides [2, 2 ^ 63, 2] = [0, 2, 1] ∧
    (calc_strides [2, 2 ^ 63, 2]).getD 0 0 ≠
      (calc_strides [2, 2 ^ 63, 2]).getD 1 0 * ([2, 2 ^ 63, 2] : List Nat).getD 1 0 := by
  decide

/-- C1, amended: for every shape of rank `r`, `calc_strides` produces a stride
vector of length `r` whose last entry is `1` and in which, for every
`i + 1 < r`, `stride[i]` is `stride[i+1] * extent[i+1]` reduced modulo `2^64`,
hence that product itself whenever it is below `2^64`; rank 0 gives the empty
vector and the shape `[2,3,4]` gives `[12,4,1]`. -/
theorem calc_strides_recurrence (extents : List Nat) :
    (calc_strides extents).length = extents.length ∧
    (∀ i, i + 1 = extents.length → (calc_strides extents).get? i = some 1) ∧
    (∀ i, i + 1 < extents.length →
      (calc_strides extents).getD i 0 =
        ((calc_strides extents).getD (i + 1) 0 * extents.getD (i + 1) 0) % wordMod) ∧
    (∀ i, i + 1 < extents.length →
      (calc_strides extents).getD (i + 1) 0 * extents.getD (i + 1) 0 < wordMod →
      (calc_strides extents).getD i 0 =
        (calc_strides extents).getD (i + 1) 0 * extents.getD (i + 1) 0) ∧
    calc_strides [] = [] ∧ calc_strides [2, 3, 4] = [12, 4, 1] := by
  have hs := calc_strides_spec extents
  have hrec : ∀ i, i + 1 < extents.length →
      (calc_strides extents).getD i 0 =
        ((calc_strides extents).getD (i + 1) 0 * extents.getD (i + 1) 0) % wordMod := by
    intro i hi
    rw [hs.2 i (by omega), hs.2 (i + 1) hi]
    exact strideAt_step extents i hi
  refine ⟨hs.1, ?_, hrec, ?_, by decide, by decide⟩
  · intro i hi
    have hlt : i < (calc_strides extents).length := by rw [hs.1]; omega
    rw [List.get?_eq_getElem?, List.getElem?_eq_getElem hlt,
      ← List.getD_eq_getElem _ 0 hlt, hs.2 i (by omega), strideAt_last extents i hi]
  · intro i hi hlt
    rw [hrec i hi, Nat.mod_eq_of_lt hlt]

/-- C1, amended, at the shape `[2,3,4]` and the axes 2, 0 and 1. -/
theorem calc_strides_recurrence_witness :
    (calc_strides [2, 3, 4]).get? 2 = some 1 ∧
    (calc_strides [2, 3, 4]).getD 0 0 =
      ((calc_strides [2, 3, 4]).getD 1 0 * ([2, 3, 4] : List Nat).getD 1 0) % wordMod ∧
    (calc_strides [2, 3, 4]).getD 1 0 =
      (calc_strides [2, 3, 4]).getD 2 0 * ([2, 3, 4] : List Nat).getD 2 0 :=
  ⟨(calc_strides_recurrence [2, 3, 4]).2.1 2 (by decide),
   (calc_strides_recurrence [2, 3, 4]).2.2.1 0 (by decide),
   (calc_strides_recurrence [2, 3, 4]).2.2.2.1 1 (by decide) (by decide)⟩

/-- C2, as stated, fails: the buffer built for the shape `[2, 2^63, 2]` maps
the in-bounds subscript `[1,0,0]` to `0`, while its row-major linear index is
`2^64`. -/
theorem sub2index_exact_index_fails :
    NDBuffer.create .Int8 [2, 2 ^ 63, 2] =
      .ok { dataType := .Int8, extents := [2, 2 ^ 63, 2], strides := [0, 2, 1], dstore := 0 } ∧
    NDBuffer.sub2index
      { dataType := .Int8, extents := [2, 2 ^ 63, 2], strides := [0, 2, 1], dstore := 0 }
      [1, 0, 0] = some 0 ∧
    rowMajorIndex [2, 2 ^ 63, 2] [1, 0, 0] = 2 ^ 64 := by
  decide

/-- C2, amended: for every buffer built by the constructor or by `resize` and
every subscript vector of the length of its current extents, `sub2index`
returns the row-major linear index of the subscript in the current extents
reduced modulo `2^64`, hence that index itself whenever it is below `2^64`;
the constructor succeeds for every numeric element type, and for the shape
`[2,3,4]` the subscript `[1,2,3]` has index 23. -/
theorem sub2index_row_major :
    (∀ dtype dims b, NDBuffer.create dtype dims = .ok b →
      ∀ sub : List Nat, sub.length = dims.length →
        b.sub2index sub = some (rowMajorIndex dims sub % wordMod) ∧
        (rowMajorIndex dims sub < wordMod → b.sub2index sub = some (rowMajorIndex dims sub))) ∧
    (∀ (b0 : NDBuffer) new_size b, b0.resize new_size = .ok b →
      ∀ sub : List Nat, sub.length = new_size.length →
        b.sub2index sub = some (rowMajorIndex new_size sub % wordMod) ∧
        (rowMajorIndex new_size sub < wordMod →
          b.sub2index sub = some (rowMajorIndex new_size sub))) ∧
    (∀ dtype dims, dtype ≠ DataType.Text → ∃ b, NDBuffer.create dtype dims = .ok b) ∧
    (∀ b, NDBuffer.create .Double [2, 3, 4] = .ok b → b.sub2index [1, 2, 3] = some 23) := by
  have key : ∀ (b0 b : NDBuffer), b0.allocate_space = .ok b → ∀ sub : List Nat,
      sub.length = b0.extents.length →
      b.sub2index sub = some (rowMajorIndex b0.extents sub % wordMod) ∧
      (rowMajorIndex b0.extents sub < wordMod →
        b.sub2index sub = some (rowMajorIndex b0.extents sub)) := by
    intro b0 b h sub hlen
    have h1 : b.sub2index sub = some (rowMajorIndex b0.extents sub % wordMod) := by
      unfold NDBuffer.sub2index
      rw [(allocate_space_ok b0 b h).1]
      exact dot_calc_strides _ _ hlen
    exact ⟨h1, fun hlt => by rw [h1, Nat.mod_eq_of_lt hlt]⟩
  refine ⟨?_, ?_, ?_, ?_⟩
  · intro dtype dims b h sub hlen
    exact key _ b h sub hlen
  · intro b0 new_size b h sub hlen
    exact key _ b h sub hlen
  · intro dtype dims h
    exact allocate_space_total _ h
  · intro b h
    have := (key _ b h [1, 2, 3] (by decide)).1
    rw [this]
    decide

/-- C2, amended, at the buffer built for the shape `[2,3,4]`, resized to
`[3,5]`, and the subscripts `[1,2,3]` and `[2,4]`. -/
theorem sub2index_row_major_witness :
    NDBuffer.sub2index
      { dataType := .Double, extents := [2, 3, 4], strides := [12, 4, 1], dstore := 192 }
      [1, 2, 3] = some 23 ∧
    NDBuffer.sub2index
      { dataType := .Double, extents := [3, 5], strides := [5, 1], dstore := 120 }
      [2, 4] = some 14 :=
  ⟨(sub2index_row_major.1 .Double [2, 3, 4] _ (by decide) [1, 2, 3] (by decide)).2 (by decide),
   (sub2index_row_major.2.1
      { dataType := .Double, extents := [2, 3, 4], strides := [12, 4, 1], dstore := 192 }
      [3, 5] _ (by decide) [2, 4] (by decide)).2 (by decide)⟩

/-! ## Linked arrays of a tag (DataTagHDF5) -/

theorem checkDimensionsRaw_same_extent (n : Nat) :
    checkDimensionsRaw { extent := n + 1 } { extent := n + 1 } = .ok false := by
  simp [checkDimensionsRaw, MultiArray1.num_dimensions, MultiArray1.shape, checkDimensions_loop]

/-- With the type catalog of `DataType.cpp` the write of a text attribute
throws before anything is created or written. -/
theorem writeTextAttr_throws (attr : Option String) (s : String) :
    writeTextAttr attr s = (attr, .error (.exception "Unkown DataType")) := by
  cases attr <;> rfl

/-- With the type catalog of `DataType.cpp` the read of a text attribute gives
the empty string for an absent attribute and throws for a present one. -/
theorem readTextAttr_cases (attr : Option String) :
    (attr = none ∧ readTextAttr attr = .ok "") ∨
    (attr ≠ none ∧ readTextAttr attr = .error (.exception "Unkown DataType")) := by
  cases attr with
  | none => exact Or.inl ⟨rfl, rfl⟩
  | some s => exact Or.inr ⟨by simp, rfl⟩

/-- With the type catalog of `DataType.cpp` the setter of positions leaves the
stored state as it was, whatever its outcome. -/
theorem setPositions_keeps_state (raw : DataArray → Except String MultiArray1)
    (block : List DataArray) (st : TagState) (id : String) (now : Nat) :
    (setPositions raw block st id now).1 = st := by
  unfold setPositions
  by_cases hb : hasDataArray block id = true
  · simp only [hb, Bool.not_true, Bool.false_eq_true, if_false]
    cases hc : positionsCheck raw block st id with
    | error f => rfl
    | ok u => simp only [writeTextAttr_throws]
  · simp [hb]

/-- With the type catalog of `DataType.cpp` the setter of extents leaves the
stored state as it was, whatever its outcome. -/
theorem setExtents_keeps_state (raw : DataArray → Except String MultiArray1)
    (block : List DataArray) (st : TagState) (id : String) (now : Nat) :
    (setExtents raw block st id now).1 = st := by
  unfold setExtents
  by_cases hb : hasDataArray block id = true
  · simp only [hb, Bool.not_true, Bool.false_eq_true, if_false]
    cases hc : extentsCheck raw block st id with
    | error f => rfl
    | ok u => simp only [writeTextAttr_throws]
  · simp [hb]

/-- With the type catalog of `DataType.cpp` neither setter ever returns: each
call ends in a fault. -/
theorem setters_never_return (raw : DataArray → Except String MultiArray1)
    (block : List DataArray) (st : TagState) (id : String) (now : Nat) :
    (∃ f, (setPositions raw block st id now).2 = .error f) ∧
    (∃ f, (setExtents raw block st id now).2 = .error f) := by
  constructor
  · unfold setPositions
    by_cases hb : hasDataArray block id = true
    · simp only [hb, Bool.not_true, Bool.false_eq_true, if_false]
      cases hc : positionsCheck raw block st id with
      | error f => exact ⟨f, rfl⟩
      | ok u => exact ⟨.exception "Unkown DataType", by simp only [writeTextAttr_throws]⟩
    · exact ⟨.exception
        "DataTagHDF5::extents: cannot set Extent because referenced DataArray does not exist!",
        by simp [hb]⟩
  · unfold setExtents
    by_cases hb : hasDataArray block id = true
    · simp only [hb, Bool.not_true, Bool.false_eq_true, if_false]
      cases hc : extentsCheck raw block st id with
      | error f => exact ⟨f, rfl⟩
      | ok u => exact ⟨.exception "Unkown DataType", by simp only [writeTextAttr_throws]⟩
    · exact ⟨.exception
        "DataTagHDF5::extents: cannot set Extent because referenced DataArray does not exist!",
        by simp [hb]⟩

/-- C3: `checkDimensions` at two arrays of the same shape `[10]` returns
false although the shapes agree, and at arrays of the shapes `[1]` and `[5]`
it returns true although the shapes differ. -/
theorem checkDimensions_inverted :
    checkDimensions getRawData { id := "pos10", shape := [10] }
      { id := "ext10", shape := [10] } = .ok false ∧
    shapesAgree { id := "pos10", shape := [10] } { id := "ext10", shape := [10] } = true ∧
    checkDimensions getRawData { id := "one", shape := [1] }
      { id := "five", shape := [5] } = .ok true ∧
    shapesAgree { id := "one", shape := [1] } { id := "five", shape := [5] } = false := by
  decide

/-- C4: on a tag without bound members and a block with two arrays of shape
`[10]`, binding positions throws "Unkown DataType" and stores nothing, and so
does binding extents; on a tag whose positions attribute is present, binding
extents of the same shape throws "Unkown DataType" when it reads that
attribute; and the shape check behind these calls returns false for the two
arrays of shape `[10]`. -/
theorem bind_equal_shapes_fails :
    setPositions getRawData sampleBlock { positions := none, extents := none, updated_at := 0 }
      "pos10" 1 =
      ({ positions := none, extents := none, updated_at := 0 },
        .error (.exception "Unkown DataType")) ∧
    setExtents getRawData sampleBlock { positions := none, extents := none, updated_at := 0 }
      "ext10" 2 =
      ({ positions := none, extents := none, updated_at := 0 },
        .error (.exception "Unkown DataType")) ∧
    setExtents getRawData sampleBlock tagWithPositions "ext10" 2 =
      (tagWithPositions, .error (.exception "Unkown DataType")) ∧
    setPositions getRawData sampleBlock tagWithExtents "pos10" 2 =
      (tagWithExtents, .error (.exception "Unkown DataType")) ∧
    checkDimensions getRawData { id := "ext10", shape := [10] }
      { id := "pos10", shape := [10] } = .ok false := by
  decide

/-- C5: whenever the setter of positions or the setter of extents fails, be it
because the block has no array with the id, because the check against the
other member fails, or because an attribute read or write throws, the stored
state of the tag, the attributes "positions" and "extents" included, is the
state before the call; the setter throws whenever the block has no array with
the id. -/
theorem failed_bind_leaves_state (raw : DataArray → Except String MultiArray1)
    (block : List DataArray) (st : TagState) (id : String) (now : Nat) :
    (∀ f, (setPositions raw block st id now).2 = .error f →
      (setPositions raw block st id now).1 = st) ∧
    (∀ f, (setExtents raw block st id now).2 = .error f →
      (setExtents raw block st id now).1 = st) ∧
    (hasDataArray block id = false →
      (∃ msg, (setPositions raw block st id now).2 = .error (.exception msg)) ∧
      (∃ msg, (setExtents raw block st id now).2 = .error (.exception msg))) := by
  refine ⟨fun _ _ => setPositions_keeps_state raw block st id now,
    fun _ _ => setExtents_keeps_state raw block st id now, ?_⟩
  intro h
  constructor
  · exact ⟨"DataTagHDF5::extents: cannot set Extent because referenced DataArray does not exist!",
      by simp [setPositions, h]⟩
  · exact ⟨"DataTagHDF5::extents: cannot set Extent because referenced DataArray does not exist!",
      by simp [setExtents, h]⟩

/-- C5 at a tag whose positions attribute is present and an array of the
block, and at an id that the block does not hold. -/
theorem failed_bind_leaves_state_witness :
    (setExtents getRawData sampleBlock tagWithPositions "ext10" 2).1 = tagWithPositions ∧
    (setPositions getRawData sampleBlock tagWithExtents "absent" 2).1 = tagWithExtents ∧
    (∃ msg, (setPositions getRawData sampleBlock tagWithExtents "absent" 2).2
      = .error (.exception msg)) :=
  ⟨(failed_bind_leaves_state getRawData sampleBlock tagWithPositions "ext10" 2).2.1
      (.exception "Unkown DataType") (by decide),
   (failed_bind_leaves_state getRawData sampleBlock tagWithExtents "absent" 2).1
      (.exception
        "DataTagHDF5::extents: cannot set Extent because referenced DataArray does not exist!")
      (by decide),
   ((failed_bind_leaves_state getRawData sampleBlock tagWithExtents "absent" 2).2.2
      (by decide)).1⟩

/-! ## Dimension registry (DataArrayHDF5) -/

theorem lookup_nil (j : Nat) : DimensionGroup.lookup [] j = none := rfl

theorem lookup_cons (k : Nat) (c : DimensionNode) (g : DimensionGroup) (j : Nat) :
    DimensionGroup.lookup ((k, c) :: g) j = if k = j then some c else g.lookup j := rfl

theorem lookup_removeGroup (g : DimensionGroup) (id j : Nat) :
    (g.removeGroup id).lookup j = if j = id then none else g.lookup j := by
  induction g with
  | nil => simp [DimensionGroup.removeGroup, lookup_nil]
  | cons c g ih =>
    obtain ⟨k, n⟩ := c
    unfold DimensionGroup.removeGroup at ih ⊢
    by_cases hk : k = id
    · subst hk
      simp only [List.filter_cons, ne_eq, not_true_eq_false, decide_False, Bool.false_eq_true,
        if_false, ih, lookup_cons]
      by_cases hj : j = k
      · simp [hj]
      · have : ¬ k = j := fun h => hj h.symm
        simp [hj, this]
    · simp only [List.filter_cons, ne_eq, hk, not_false_eq_true, decide_True, if_true,
        lookup_cons, ih]
      by_cases hj : k = j
      · have : ¬ j = id := fun h => hk (hj.trans h)
        simp [hj, this]
      · simp [hj]

theorem lookup_append (g : DimensionGroup) (id j : Nat) (c : DimensionNode) :
    DimensionGroup.lookup (g ++ [(id, c)]) j =
      match g.lookup j with
      | some d => some d
      | none => if id = j then some c else none := by
  induction g with
  | nil => simp [lookup_cons, lookup_nil]
  | cons x g ih =>
    obtain ⟨k, n⟩ := x
    simp only [List.cons_append, lookup_cons]
    by_cases hk : k = j
    · simp [hk]
    · simp [hk, ih]

theorem lookup_setType (g : DimensionGroup) (id j : Nat) (t : DimensionType) :
    (g.setType id t).lookup j =
      if j = id then (g.lookup j).map (fun c => { c with dimension_type := some t })
      else g.lookup j := by
  induction g with
  | nil => simp [DimensionGroup.setType, lookup_nil]
  | cons x g ih =>
    obtain ⟨k, n⟩ := x
    unfold DimensionGroup.setType at ih ⊢
    by_cases hk : k = id
    · subst hk
      simp only [List.map_cons, if_true, lookup_cons, ih]
      by_cases hj : k = j
      · subst hj
        simp
      · have : ¬ j = k := fun h => hj h.symm
        simp [hj, this]
    · simp only [List.map_cons, hk, if_false, lookup_cons, ih]
      by_cases hj : k = j
      · subst hj
        simp [hk]
      · simp [hj]

theorem lookup_rename (g : DimensionGroup) (old_id new_id j : Nat)
    (hnew : g.lookup new_id = none) :
    DimensionGroup.lookup (g.map (fun c => if c.1 = old_id then (new_id, c.2) else c)) j =
      if j = new_id then g.lookup old_id
      else if j = old_id then none
      else g.lookup j := by
  induction g with
  | nil => simp [lookup_nil]
  | cons x g ih =>
    obtain ⟨k, n⟩ := x
    have hk_new : ¬ k = new_id := by
      intro h
      simp [lookup_cons, h] at hnew
    have hnew2 : DimensionGroup.lookup g new_id = none := by
      simpa [lookup_cons, hk_new] using hnew
    have ih2 := ih hnew2
    by_cases hk : k = old_id
    · subst hk
      simp only [List.map_cons, if_true, lookup_cons, ih2]
      by_cases hj : j = new_id
      · subst hj
        simp
      · have h1 : ¬ new_id = j := fun h => hj h.symm
        simp only [h1, if_false, hj]
        by_cases hj2 : j = k
        · simp [hj2]
        · have : ¬ k = j := fun h => hj2 h.symm
          simp [hj2, this]
    · simp only [List.map_cons, hk, if_false, lookup_cons, ih2]
      by_cases hj : k = j
      · subst hj
        simp [hk, hk_new]
      · simp only [hj, if_false]

theorem mem_ids_iff (g : DimensionGroup) (k : Nat) :
    k ∈ g.ids ↔ g.hasGroup k = true := by
  induction g with
  | nil => simp [DimensionGroup.ids, DimensionGroup.hasGroup, lookup_nil]
  | cons x g ih =>
    obtain ⟨j, n⟩ := x
    unfold DimensionGroup.ids DimensionGroup.hasGroup at ih ⊢
    simp only [List.map_cons, List.mem_cons, lookup_cons]
    by_cases hj : j = k
    · simp [hj]
    · have : ¬ k = j := fun h => hj h.symm
      simp [hj, this, ih]



theorem hasGroup_eq_false_iff (g : DimensionGroup) (k : Nat) :
    g.hasGroup k = false ↔ g.lookup k = none := by
  unfold DimensionGroup.hasGroup
  cases g.lookup k <;> simp

theorem idsExactly_iff (g : DimensionGroup) (n : Nat) :
    IdsExactly g n ↔ g.ids.Nodup ∧ ∀ k, g.hasGroup k = true ↔ 1 ≤ k ∧ k ≤ n := by
  unfold IdsExactly
  constructor
  · intro h
    refine ⟨h.nodup_iff.mpr (List.nodup_range' 1 n), fun k => ?_⟩
    rw [← mem_ids_iff, h.mem_iff, List.mem_range'_1]
    omega
  · rintro ⟨hn, hm⟩
    rw [List.perm_ext_iff_of_nodup hn (List.nodup_range' 1 n)]
    intro k
    rw [mem_ids_iff, hm, List.mem_range'_1]
    omega

theorem idsExactly_count (g : DimensionGroup) (n : Nat) (h : IdsExactly g n) :
    dimensionCount g = n := by
  have := h.length_eq
  simpa [DimensionGroup.ids, dimensionCount, DimensionGroup.objectCount] using this

theorem ids_setType (g : DimensionGroup) (id : Nat) (t : DimensionType) :
    (g.setType id t).ids = g.ids := by
  unfold DimensionGroup.setType DimensionGroup.ids
  rw [List.map_map]
  apply List.map_congr_left
  intro c _
  by_cases h : c.1 = id <;> simp [h]

theorem ids_rename (g : DimensionGroup) (old_id new_id : Nat) :
    DimensionGroup.ids (g.map (fun c => if c.1 = old_id then (new_id, c.2) else c)) =
      g.ids.map (fun k => if k = old_id then new_id else k) := by
  unfold DimensionGroup.ids
  rw [List.map_map, List.map_map]
  apply List.map_congr_left
  intro c _
  by_cases h : c.1 = old_id <;> simp [h]

theorem nodup_removeGroup (g : DimensionGroup) (id : Nat) (h : g.ids.Nodup) :
    (g.removeGroup id).ids.Nodup := by
  unfold DimensionGroup.removeGroup DimensionGroup.ids at *
  exact h.sublist ((List.filter_sublist g).map Prod.fst)

theorem nodup_rename (g : DimensionGroup) (old_id new_id : Nat) (h : g.ids.Nodup)
    (hnew : g.lookup new_id = none) :
    (DimensionGroup.ids (g.map (fun c => if c.1 = old_id then (new_id, c.2) else c))).Nodup := by
  rw [ids_rename]
  have hmem : new_id ∉ g.ids := by
    rw [mem_ids_iff, Bool.not_eq_true, hasGroup_eq_false_iff]
    exact hnew
  apply List.Nodup.map_on _ h
  intro x hx y hy hxy
  by_cases h1 : x = old_id <;> by_cases h2 : y = old_id
  · rw [h1, h2]
  · simp only [h1, h2, if_true, if_false] at hxy
    exact absurd (hxy ▸ hy) hmem
  · simp only [h1, h2, if_true, if_false] at hxy
    exact absurd (hxy ▸ hx) hmem
  · simpa [h1, h2] using hxy


/-- The invariant of the renumbering loop of `removeDimension`: before the
iteration for `old_id = j` the ids below `id` hold what they held, the ids from
`id` up to `j - 2` hold what their successor held, the id `j - 1` is free and
the ids from `j` on hold what they held; the loop finishes without a failed
rename. -/
theorem renumber_loop_spec (L : Nat → Option DimensionNode) (n id : Nat)
    (hL : ∀ k, (L k).isSome = true ↔ 1 ≤ k ∧ k ≤ n) :
    ∀ (fuel j : Nat) (g : DimensionGroup), j + fuel = n + 1 → id < j →
      g.ids.Nodup →
      (∀ k, k < id → g.lookup k = L k) →
      (∀ k, id ≤ k → k + 1 < j → g.lookup k = L (k + 1)) →
      g.lookup (j - 1) = none →
      (∀ k, j ≤ k → g.lookup k = L k) →
      ∃ g1, renumber_loop n fuel j g = (g1, .ok ()) ∧ g1.ids.Nodup ∧
        (∀ k, k < id → g1.lookup k = L k) ∧
        (∀ k, id ≤ k → k < n → g1.lookup k = L (k + 1)) ∧
        (∀ k, n ≤ k → g1.lookup k = none) := by
  intro fuel
  induction fuel with
  | zero =>
    intro j g hj hid hnd ha hb hc hd
    have hjn : j = n + 1 := by omega
    subst hjn
    refine ⟨g, rfl, hnd, ha, fun k h1 h2 => hb k h1 (by omega), ?_⟩
    intro k hk
    by_cases hkn : k = n
    · subst hkn
      simpa using hc
    · rw [hd k (by omega)]
      have := hL k
      cases hLk : L k with
      | none => rfl
      | some c =>
        rw [hLk] at this
        have := this.mp rfl
        omega
  | succ fuel ih =>
    intro j g hj hid hnd ha hb hc hd
    have hjn : j ≤ n := by omega
    have hold : g.hasGroup j = true := by
      unfold DimensionGroup.hasGroup
      rw [hd j (le_refl j)]
      exact (hL j).mpr ⟨by omega, hjn⟩
    have hnew : g.hasGroup (j - 1) = false := (hasGroup_eq_false_iff g (j - 1)).mpr hc
    unfold renumber_loop
    simp only [hjn, if_true, DimensionGroup.renameGroup, hold, hnew, Bool.not_true,
      Bool.false_eq_true, if_false]
    apply ih (j + 1) _ (by omega) (by omega) (nodup_rename g j (j - 1) hnd hc)
    · intro k hk
      rw [lookup_rename g j (j - 1) k hc, if_neg (by omega), if_neg (by omega)]
      exact ha k hk
    · intro k hk1 hk2
      rw [lookup_rename g j (j - 1) k hc]
      by_cases hkj : k = j - 1
      · rw [if_pos hkj, hd j (le_refl j)]
        have : k + 1 = j := by omega
        rw [this]
      · rw [if_neg hkj, if_neg (by omega)]
        exact hb k hk1 (by omega)
    · rw [lookup_rename g j (j - 1) _ hc, if_neg (by omega), if_pos (by omega)]
    · intro k hk
      rw [lookup_rename g j (j - 1) k hc, if_neg (by omega), if_neg (by omega)]
      exact hd k (by omega)

/-- What `removeDimension` does in a registry whose ids are exactly `1..n` at
a present id: it returns true and leaves the shifted lookups. -/
theorem removeDimension_spec (g : DimensionGroup) (n id : Nat) (hg : IdsExactly g n)
    (h1 : 1 ≤ id) (h2 : id ≤ n) :
    ∃ g1, removeDimension g id = (g1, .ok true) ∧ g1.ids.Nodup ∧
      (∀ k, k < id → g1.lookup k = g.lookup k) ∧
      (∀ k, id ≤ k → k < n → g1.lookup k = g.lookup (k + 1)) ∧
      (∀ k, n ≤ k → g1.lookup k = none) := by
  have hcount := idsExactly_count g n hg
  obtain ⟨hnd, hmem⟩ := (idsExactly_iff g n).mp hg
  have hhas : g.hasGroup id = true := (hmem id).mpr ⟨h1, h2⟩
  have hL : ∀ k, (g.lookup k).isSome = true ↔ 1 ≤ k ∧ k ≤ n := hmem
  have hnone : ∀ k, n < k → g.lookup k = none := by
    intro k hk
    rw [← hasGroup_eq_false_iff]
    cases hh : g.hasGroup k with
    | false => rfl
    | true =>
      have := (hmem k).mp hh
      omega
  unfold removeDimension
  simp only [hcount, hhas, if_true, Bool.true_and]
  by_cases hlt : id < n
  · simp only [hlt, decide_True, if_true]
    obtain ⟨g1, hrun, hnd1, ha, hb, hc⟩ :=
      renumber_loop_spec g.lookup n id hL (n - id) (id + 1) (g.removeGroup id) (by omega)
        (by omega) (nodup_removeGroup g id hnd)
        (fun k hk => by rw [lookup_removeGroup, if_neg (by omega)])
        (fun k hk1 hk2 => by omega)
        (by rw [lookup_removeGroup]; simp)
        (fun k hk => by rw [lookup_removeGroup, if_neg (by omega)])
    rw [hrun]
    exact ⟨g1, rfl, hnd1, ha, hb, hc⟩
  · simp only [hlt, decide_False, Bool.false_eq_true, if_false]
    have hidn : id = n := by omega
    refine ⟨_, rfl, nodup_removeGroup g id hnd, ?_, ?_, ?_⟩
    · intro k hk
      rw [lookup_removeGroup, if_neg (by omega)]
    · intro k hk1 hk2
      omega
    · intro k hk
      rw [lookup_removeGroup]
      by_cases hkid : k = id
      · simp [hkid]
      · rw [if_neg hkid]
        exact hnone k (by omega)


theorem createDimension_eq (g : DimensionGroup) (id : Nat) (t : DimensionType) :
    createDimension g id t =
      ((((if g.hasGroup (createTarget g id) then g.removeGroup (createTarget g id) else g).openGroup
          (createTarget g id)).setType (createTarget g id) t),
        { id := createTarget g id, type := t }) := rfl

theorem lookup_cleared (g : DimensionGroup) (target k : Nat) :
    (if g.hasGroup target then g.removeGroup target else g).lookup k =
      if k = target then none else g.lookup k := by
  by_cases h : g.hasGroup target = true
  · rw [if_pos h, lookup_removeGroup]
  · rw [if_neg h]
    by_cases hk : k = target
    · rw [if_pos hk, hk]
      exact (hasGroup_eq_false_iff g target).mp (by simpa using h)
    · rw [if_neg hk]

theorem openGroup_absent (g : DimensionGroup) (id : Nat) (h : g.lookup id = none) :
    g.openGroup id = g ++ [(id, { dimension_type := none, attrs := [] })] := by
  unfold DimensionGroup.openGroup
  rw [if_neg]
  rw [Bool.not_eq_true]
  exact (hasGroup_eq_false_iff g id).mpr h

/-- The lookups after `createDimension`: the returned id holds a fresh
descriptor of the requested variant and every other id holds what it held. -/
theorem createDimension_lookup (g : DimensionGroup) (id : Nat) (t : DimensionType) (k : Nat) :
    (createDimension g id t).1.lookup k =
      if k = createTarget g id then some { dimension_type := some t, attrs := [] }
      else g.lookup k := by
  rw [createDimension_eq]
  simp only
  have hc := lookup_cleared g (createTarget g id)
  rw [lookup_setType, openGroup_absent _ _ (by rw [hc]; simp), lookup_append, hc k]
  by_cases hk : k = createTarget g id
  · simp [hk]
  · have : ¬ createTarget g id = k := fun h => hk h.symm
    simp only [hk, if_false, this]
    cases g.lookup k <;> rfl

theorem createDimension_ids_absent (g : DimensionGroup) (id : Nat) (t : DimensionType)
    (h : g.hasGroup (createTarget g id) = false) :
    (createDimension g id t).1.ids = g.ids ++ [createTarget g id] := by
  rw [createDimension_eq]
  simp only
  rw [ids_setType, if_neg (by simp [h]),
    openGroup_absent _ _ ((hasGroup_eq_false_iff _ _).mp h)]
  simp [DimensionGroup.ids]

theorem idsExactly_succ_absent (g : DimensionGroup) (n : Nat) (h : IdsExactly g n) :
    g.hasGroup (n + 1) = false := by
  cases hh : g.hasGroup (n + 1) with
  | false => rfl
  | true =>
    have := (((idsExactly_iff g n).mp h).2 (n + 1)).mp hh
    omega

theorem createDimension_idsExactly (g : DimensionGroup) (n id : Nat) (t : DimensionType)
    (h : IdsExactly g n) (hid : id ≤ n + 1) :
    IdsExactly (createDimension g id t).1 (n + 1) := by
  have hcount := idsExactly_count g n h
  have htarget : createTarget g id = n + 1 := by
    unfold createTarget
    rw [hcount]
    by_cases hle : id ≤ n
    · rw [if_pos hle]
    · rw [if_neg hle]
      omega
  have habs := idsExactly_succ_absent g n h
  unfold IdsExactly at h ⊢
  rw [createDimension_ids_absent g id t (by rw [htarget]; exact habs), htarget,
    List.range'_1_concat, Nat.add_comm 1 n]
  exact h.append_right _


theorem removeDimension_idsExactly (g : DimensionGroup) (n id : Nat) (hg : IdsExactly g n)
    (h1 : 1 ≤ id) (h2 : id ≤ n) :
    IdsExactly (removeDimension g id).1 (n - 1) := by
  obtain ⟨g1, hrun, hnd, ha, hb, hc⟩ := removeDimension_spec g n id hg h1 h2
  have hmem := ((idsExactly_iff g n).mp hg).2
  rw [hrun, idsExactly_iff]
  refine ⟨hnd, fun k => ?_⟩
  unfold DimensionGroup.hasGroup
  by_cases hk1 : k < id
  · rw [ha k hk1]
    have := hmem k
    unfold DimensionGroup.hasGroup at this
    rw [this]
    omega
  · by_cases hk2 : k < n
    · rw [hb k (by omega) hk2]
      have := hmem (k + 1)
      unfold DimensionGroup.hasGroup at this
      rw [this]
      omega
    · rw [hc k (by omega)]
      simp
      omega

theorem removeDimension_absent (g : DimensionGroup) (id : Nat) (h : g.hasGroup id = false) :
    removeDimension g id = (g, .ok false) := by
  unfold removeDimension
  simp [h]

/-- Every call other than a creation with a requested id above `count + 1`
keeps the ids contiguous. -/
theorem applyOp_keeps_ids (g : DimensionGroup) (n : Nat) (h : IdsExactly g n) :
    (∀ id t, id ≤ n + 1 → IdsExactly (applyOp g (.create id t)) (n + 1)) ∧
    (∀ id, IdsExactly (applyOp g (.remove id)) (if g.hasGroup id then n - 1 else n)) := by
  constructor
  · intro id t hid
    exact createDimension_idsExactly g n id t h hid
  · intro id
    show IdsExactly (removeDimension g id).1 _
    cases hh : g.hasGroup id with
    | false =>
      rw [removeDimension_absent g id hh]
      simpa using h
    | true =>
      have hr := (((idsExactly_iff g n).mp h).2 id).mp hh
      simpa using removeDimension_idsExactly g n id h hr.1 hr.2

/-- C6: the registry reached by `createDimension(2, Set)` holds one
descriptor, under id 2; `createDimension(1, Range)` with `1 <= count` returns
id 2, which is `count + 1`, removes the Set descriptor stored there and
recreates it as a Range descriptor, and the count stays 1. -/
theorem createDimension_count_unchanged :
    dimensionCount (runOps [.create 2 .Set]) = 1 ∧
    (runOps [.create 2 .Set]).lookup 2 = some { dimension_type := some .Set, attrs := [] } ∧
    (createDimension (runOps [.create 2 .Set]) 1 .Range).2.id = 2 ∧
    dimensionCount (createDimension (runOps [.create 2 .Set]) 1 .Range).1 = 1 ∧
    (createDimension (runOps [.create 2 .Set]) 1 .Range).1.lookup 2 =
      some { dimension_type := some .Range, attrs := [] } := by
  decide

/-- In every registry holding `count` descriptors, for every `requestedId <=
count`, `createDimension` returns a descriptor whose id is `count + 1`, not
`requestedId`, and stores a child tagged with the requested variant under that
id; when no descriptor is stored under `count + 1` before the call, as in
every registry whose ids are exactly `1..count`, the count becomes `count + 1`
and ids `1..count` become ids `1..count + 1`. -/
theorem createDimension_appends (g : DimensionGroup) (requestedId : Nat)
    (type : DimensionType) (h : requestedId ≤ dimensionCount g) :
    (createDimension g requestedId type).2 = { id := dimensionCount g + 1, type := type } ∧
    (createDimension g requestedId type).2.id ≠ requestedId ∧
    (createDimension g requestedId type).1.lookup (dimensionCount g + 1) =
      some { dimension_type := some type, attrs := [] } ∧
    (g.hasGroup (dimensionCount g + 1) = false →
      dimensionCount (createDimension g requestedId type).1 = dimensionCount g + 1) ∧
    (IdsExactly g (dimensionCount g) →
      dimensionCount (createDimension g requestedId type).1 = dimensionCount g + 1 ∧
      IdsExactly (createDimension g requestedId type).1 (dimensionCount g + 1)) := by
  have htarget : createTarget g requestedId = dimensionCount g + 1 := by
    unfold createTarget
    rw [if_pos h]
  have hcount : g.hasGroup (dimensionCount g + 1) = false →
      dimensionCount (createDimension g requestedId type).1 = dimensionCount g + 1 := by
    intro habs
    have hids := createDimension_ids_absent g requestedId type (by rw [htarget]; exact habs)
    have hlen := congrArg List.length hids
    simpa [DimensionGroup.ids, dimensionCount, DimensionGroup.objectCount] using hlen
  refine ⟨?_, ?_, ?_, hcount, ?_⟩
  · rw [createDimension_eq, htarget]
  · rw [createDimension_eq]
    simp only [htarget]
    omega
  · rw [createDimension_lookup, htarget, if_pos rfl]
  · intro hex
    exact ⟨hcount (idsExactly_succ_absent g _ hex),
      createDimension_idsExactly g _ requestedId type hex (by omega)⟩

/-- At the registry left by creating the dimensions 1, 2, 3 and removing 2,
`createDimension(1, Set)` yields id 3 and the count goes from 2 to 3. -/
theorem createDimension_appends_witness :
    (createDimension
      (runOps [.create 1 .Set, .create 2 .Range, .create 3 .Sample, .remove 2]) 1 .Set).2
      = { id := 3, type := .Set } ∧
    dimensionCount (createDimension
      (runOps [.create 1 .Set, .create 2 .Range, .create 3 .Sample, .remove 2]) 1 .Set).1
      = 3 ∧
    IdsExactly (createDimension
      (runOps [.create 1 .Set, .create 2 .Range, .create 3 .Sample, .remove 2]) 1 .Set).1 3 :=
  ⟨(createDimension_appends
      (runOps [.create 1 .Set, .create 2 .Range, .create 3 .Sample, .remove 2]) 1 .Set
      (by decide)).1,
   ((createDimension_appends
      (runOps [.create 1 .Set, .create 2 .Range, .create 3 .Sample, .remove 2]) 1 .Set
      (by decide)).2.2.2.2 (by decide)).1,
   ((createDimension_appends
      (runOps [.create 1 .Set, .create 2 .Range, .create 3 .Sample, .remove 2]) 1 .Set
      (by decide)).2.2.2.2 (by decide)).2⟩

/-- C7: the registry reached by `createDimension(2, Set)` and
`createDimension(3, Sample)` holds a Sample descriptor under id 3; the call
`createDimension(1, Range)` removes it and stores a Range descriptor under
id 3. -/
theorem createDimension_overwrites :
    (runOps [.create 2 .Set, .create 3 .Sample]).lookup 3 =
      some { dimension_type := some .Sample, attrs := [] } ∧
    (createDimension (runOps [.create 2 .Set, .create 3 .Sample]) 1 .Range).1.lookup 3 =
      some { dimension_type := some .Range, attrs := [] } := by
  decide

/-- In every registry, for every requested id and every variant,
`createDimension` leaves every descriptor stored under an id other than the
one it returns present under the same id with the same contents; in a
registry whose ids are exactly `1..count` the returned id is not among them,
so every descriptor that existed before the call is left as it was. -/
theorem createDimension_frame (g : DimensionGroup) (requestedId : Nat)
    (type : DimensionType) :
    (∀ k, k ≠ (createDimension g requestedId type).2.id →
      (createDimension g requestedId type).1.lookup k = g.lookup k) ∧
    (∀ n, IdsExactly g n → ∀ k, g.hasGroup k = true →
      (createDimension g requestedId type).1.lookup k = g.lookup k) := by
  have hframe : ∀ k, k ≠ createTarget g requestedId →
      (createDimension g requestedId type).1.lookup k = g.lookup k := by
    intro k hk
    rw [createDimension_lookup, if_neg hk]
  refine ⟨fun k hk => hframe k hk, ?_⟩
  intro n hex k hk
  apply hframe
  have hcount := idsExactly_count g n hex
  have hrange := (((idsExactly_iff g n).mp hex).2 k).mp hk
  unfold createTarget
  rw [hcount]
  by_cases hle : requestedId ≤ n
  · rw [if_pos hle]
    omega
  · rw [if_neg hle]
    omega

/-- At the registry with the dimensions 1, 2, 3, creating with the requested
id 2 leaves the descriptors 2 and 3 as they were. -/
theorem createDimension_frame_witness :
    (createDimension (runOps [.create 1 .Set, .create 2 .Range, .create 3 .Sample]) 2
        .Set).1.lookup 2 =
      (runOps [.create 1 .Set, .create 2 .Range, .create 3 .Sample]).lookup 2 ∧
    (createDimension (runOps [.create 1 .Set, .create 2 .Range, .create 3 .Sample]) 2
        .Set).1.lookup 3 =
      (runOps [.create 1 .Set, .create 2 .Range, .create 3 .Sample]).lookup 3 :=
  ⟨(createDimension_frame (runOps [.create 1 .Set, .create 2 .Range, .create 3 .Sample]) 2
      .Set).1 2 (by decide),
   (createDimension_frame (runOps [.create 1 .Set, .create 2 .Range, .create 3 .Sample]) 2
      .Set).2 3 (by decide) 3 (by decide)⟩

/-- C8: `createDimension(5, Set)` on the empty registry leaves one descriptor,
stored under id 5: the ids present are not `1..count`, `getDimension(1)` fails
and `dimensions()` lists nothing although the count is 1. -/
theorem createDimension_leaves_gap :
    runOps [.create 5 .Set] = [(5, { dimension_type := some .Set, attrs := [] })] ∧
    dimensionCount (runOps [.create 5 .Set]) = 1 ∧
    ¬ IdsExactly (runOps [.create 5 .Set]) 1 ∧
    getDimension (runOps [.create 5 .Set]) 1 = .error (.exception "No such dimension") ∧
    dimensions (runOps [.create 5 .Set]) = .ok [] := by
  decide

/-- C9: in a registry whose ids are exactly `1..n`, `removeDimension(id)` with
`1 <= id <= n` returns true and leaves a registry whose ids are exactly
`1..n-1`, in which every id below `id` holds the descriptor it held and every
`k - 1` with `id < k <= n` holds the descriptor that `k` held. -/
theorem removeDimension_renumbers (g : DimensionGroup) (n id : Nat) (hg : IdsExactly g n)
    (h1 : 1 ≤ id) (h2 : id ≤ n) :
    (removeDimension g id).2 = .ok true ∧
    IdsExactly (removeDimension g id).1 (n - 1) ∧
    dimensionCount (removeDimension g id).1 = n - 1 ∧
    (∀ k, k < id → (removeDimension g id).1.lookup k = g.lookup k) ∧
    (∀ k, id < k → k ≤ n → (removeDimension g id).1.lookup (k - 1) = g.lookup k) := by
  have hex := removeDimension_idsExactly g n id hg h1 h2
  obtain ⟨g1, hrun, _, ha, hb, _⟩ := removeDimension_spec g n id hg h1 h2
  rw [hrun] at hex ⊢
  refine ⟨rfl, hex, idsExactly_count g1 _ hex, ha, ?_⟩
  intro k hk1 hk2
  have := hb (k - 1) (by omega) (by omega)
  rw [this]
  congr 1
  omega

/-- C9 at the registry with the dimensions 1, 2, 3 and the id 2: the ids left
are 1 and 2, and id 2 holds the descriptor that id 3 held. -/
theorem removeDimension_renumbers_witness :
    (removeDimension (runOps [.create 1 .Set, .create 2 .Range, .create 3 .Sample]) 2).2
      = .ok true ∧
    IdsExactly
      (removeDimension (runOps [.create 1 .Set, .create 2 .Range, .create 3 .Sample]) 2).1 2 ∧
    (removeDimension (runOps [.create 1 .Set, .create 2 .Range, .create 3 .Sample]) 2).1.lookup 2
      = (runOps [.create 1 .Set, .create 2 .Range, .create 3 .Sample]).lookup 3 :=
  ⟨(removeDimension_renumbers (runOps [.create 1 .Set, .create 2 .Range, .create 3 .Sample])
      3 2 (by decide) (by decide) (by decide)).1,
   (removeDimension_renumbers (runOps [.create 1 .Set, .create 2 .Range, .create 3 .Sample])
      3 2 (by decide) (by decide) (by decide)).2.1,
   (removeDimension_renumbers (runOps [.create 1 .Set, .create 2 .Range, .create 3 .Sample])
      3 2 (by decide) (by decide) (by decide)).2.2.2.2 3 (by decide) (by decide)⟩

/-- C10: `removeDimension(id)` returns false exactly when no descriptor is
stored under `id`, and in that case it leaves the registry as it was. -/
theorem removeDimension_false_iff_absent (g : DimensionGroup) (id : Nat) :
    ((removeDimension g id).2 = .ok false ↔ g.hasGroup id = false) ∧
    (g.hasGroup id = false → removeDimension g id = (g, .ok false)) := by
  have habs : g.hasGroup id = false → removeDimension g id = (g, .ok false) := by
    intro h
    unfold removeDimension
    simp [h]
  refine ⟨⟨?_, fun h => by rw [habs h]⟩, habs⟩
  intro h
  cases hh : g.hasGroup id with
  | false => rfl
  | true =>
    exfalso
    unfold removeDimension at h
    simp only [hh, if_true, Bool.true_and] at h
    by_cases hlt : id < dimensionCount g
    · simp only [hlt, decide_True, if_true] at h
      rcases hloop : renumber_loop (dimensionCount g) (dimensionCount g - id) (id + 1)
        (g.removeGroup id) with ⟨g2, e | u⟩
      · simp [hloop] at h
      · simp [hloop] at h
    · simp [hlt] at h

/-- C10 at the registry with the dimensions 1, 2, 3 and the absent id 4. -/
theorem removeDimension_false_iff_absent_witness :
    removeDimension (runOps [.create 1 .Set, .create 2 .Range, .create 3 .Sample]) 4 =
      (runOps [.create 1 .Set, .create 2 .Range, .create 3 .Sample], .ok false) :=
  (removeDimension_false_iff_absent
    (runOps [.create 1 .Set, .create 2 .Range, .create 3 .Sample]) 4).2 (by decide)


/-! ## Lookup by id (getDimension) -/

/-- With the type catalog of `DataType.cpp` the tag of a child is read only
when it is absent. -/
theorem readTypeTag_cases (c : DimensionNode) :
    (c.dimension_type = none ∧ readTypeTag c = .ok none) ∨
    (c.dimension_type ≠ none ∧ readTypeTag c = .error (.exception "Unkown DataType")) := by
  unfold readTypeTag
  cases c.dimension_type with
  | none => exact Or.inl ⟨rfl, rfl⟩
  | some t => exact Or.inr ⟨by simp, rfl⟩

/-- In a registry whose ids are exactly `1..count`, `getDimension(id)` fails
with "No such dimension" exactly when `id` is not in `1..count`, so for `0`
and for `count + 1`. -/
theorem getDimension_notFound_iff (g : DimensionGroup) (n : Nat) (hg : IdsExactly g n)
    (id : Nat) :
    dimensionCount g = n ∧
    (getDimension g id = .error (.exception "No such dimension") ↔ ¬ (1 ≤ id ∧ id ≤ n)) := by
  have hmem := ((idsExactly_iff g n).mp hg).2 id
  unfold DimensionGroup.hasGroup at hmem
  refine ⟨idsExactly_count g n hg, ?_⟩
  unfold getDimension
  cases hl : g.lookup id with
  | none =>
    rw [hl] at hmem
    simp only [Option.isSome_none, Bool.false_eq_true, false_iff] at hmem
    simp [hmem]
  | some c =>
    rw [hl] at hmem
    have hin : 1 ≤ id ∧ id ≤ n := hmem.mp rfl
    simp only [hin, and_self, not_true_eq_false, iff_false]
    intro heq
    rcases readTypeTag_cases c with ⟨_, h⟩ | ⟨_, h⟩
    · rw [h] at heq
      exact absurd (Fault.exception.inj (Except.error.inj heq)) (by decide)
    · rw [h] at heq
      exact absurd (Fault.exception.inj (Except.error.inj heq)) (by decide)

/-- With the type catalog of `DataType.cpp`, `getDimension` returns no
descriptor for any registry and any id. -/
theorem getDimension_never_returns (g : DimensionGroup) (id : Nat) (d : Dimension) :
    getDimension g id ≠ .ok d := by
  intro heq
  unfold getDimension at heq
  cases hl : g.lookup id with
  | none =>
    simp only [hl] at heq
    exact Except.noConfusion heq
  | some c =>
    simp only [hl] at heq
    rcases readTypeTag_cases c with ⟨_, h⟩ | ⟨_, h⟩
    · simp only [h] at heq
      exact Except.noConfusion heq
    · simp only [h] at heq
      exact Except.noConfusion heq

/-- C11: in the registry with the dimensions 1, 2, 3 the ids 0 and 4 are
reported as "No such dimension", and for the id 2, under which a Range
descriptor is stored, `getDimension` throws "Unkown DataType" when it reads
the type tag, where the descriptor should be returned. -/
theorem getDimension_present_throws :
    IdsExactly (runOps [.create 1 .Set, .create 2 .Range, .create 3 .Sample]) 3 ∧
    getDimension (runOps [.create 1 .Set, .create 2 .Range, .create 3 .Sample]) 0
      = .error (.exception "No such dimension") ∧
    getDimension (runOps [.create 1 .Set, .create 2 .Range, .create 3 .Sample]) 4
      = .error (.exception "No such dimension") ∧
    (runOps [.create 1 .Set, .create 2 .Range, .create 3 .Sample]).lookup 2
      = some { dimension_type := some .Range, attrs := [] } ∧
    getDimension (runOps [.create 1 .Set, .create 2 .Range, .create 3 .Sample]) 2
      = .error (.exception "Unkown DataType") := by
  decide

/-! ## Type catalog (DataType.cpp) -/

/-- On the ten numeric kinds the catalog is total: each has a file encoding, a
memory encoding of the same kind and the byte width of the data model. -/
theorem catalog_numeric (t : DataType) (h : t ≠ .Text) :
    (∃ enc, data_type_to_h5_filetype t = .ok enc ∧ enc.kind = t) ∧
    (∃ enc, data_type_to_h5_memtype t = .ok enc ∧ enc.kind = t) ∧
    (∃ w, data_type_to_size t = .ok w ∧ numericWidth t = some w) := by
  cases t
  case Text => exact absurd rfl h
  all_goals exact ⟨⟨_, rfl, rfl⟩, ⟨_, rfl, rfl⟩, ⟨_, rfl, rfl⟩⟩

/-- C17: for the element type Text, which is in the set of the data model,
`data_type_to_h5_filetype`, `data_type_to_h5_memtype` and `data_type_to_size`
all take the `default:` branch and throw "Unkown DataType". -/
theorem catalog_rejects_text :
    data_type_to_h5_filetype .Text = .error "Unkown DataType" ∧
    data_type_to_h5_memtype .Text = .error "Unkown DataType" ∧
    data_type_to_size .Text = .error "Unkown DataType" := by
  decide

/-! ## Index reads of the shape check (DataTagHDF5) -/

/-- Whenever the first array has at least two elements and the first extents
differ, the loop of `checkDimensions` goes on to `i = 1` and reads
`shape()[1]` of an extent list with one entry. -/
theorem checkDimensionsRaw_out_of_range (m n : Nat) (hm : 2 ≤ m) (hne : m ≠ n) :
    checkDimensionsRaw { extent := m } { extent := n } = .error (.outOfRange 1) := by
  obtain ⟨k, rfl⟩ : ∃ k, m = k + 2 := ⟨m - 2, by omega⟩
  simp [checkDimensionsRaw, MultiArray1.num_dimensions, MultiArray1.shape,
    checkDimensions_loop, hne]

/-- C19: for arrays of the shapes `[7]` and `[10]`, `checkDimensions` reads
`shape()[1]` although the extent lists have the single index 0; the same
happens for the shapes `[2]` and `[3]`. -/
theorem checkDimensions_reads_past_rank :
    checkDimensions getRawData { id := "ext7", shape := [7] }
      { id := "pos10", shape := [10] } = .error (.outOfRange 1) ∧
    ([7] : List Nat).get? 1 = none ∧
    checkDimensions getRawData { id := "two", shape := [2] }
      { id := "three", shape := [3] } = .error (.outOfRange 1) := by
  decide


/-! ## In-bounds subscripts address distinct elements (NDBuffer) -/

theorem nelms_fold (dims : List Nat) :
    ∀ acc, acc < wordMod →
      dims.foldl (fun acc e => (acc * e) % wordMod) acc = (acc * dims.prod) % wordMod := by
  induction dims with
  | nil =>
    intro acc h
    simp [Nat.mod_eq_of_lt h]
  | cons e es ih =>
    intro acc _
    rw [List.foldl_cons, ih _ (Nat.mod_lt _ wordMod_pos), List.prod_cons, Nat.mod_mul_mod,
      Nat.mul_assoc]

theorem nelms_eq (dims : List Nat) : nelms dims = dims.prod % wordMod := by
  unfold nelms
  rw [nelms_fold dims 1 (by decide), Nat.one_mul]

theorem inBounds_length (es : List Nat) :
    ∀ ss, inBounds es ss = true → ss.length = es.length := by
  induction es with
  | nil =>
    intro ss h
    cases ss with
    | nil => rfl
    | cons s ss => simp [inBounds] at h
  | cons e es ih =>
    intro ss h
    cases ss with
    | nil => simp [inBounds] at h
    | cons s ss =>
      simp only [inBounds, Bool.and_eq_true] at h
      simp [ih ss h.2]

theorem rowMajorIndex_lt (es : List Nat) :
    ∀ ss, inBounds es ss = true → rowMajorIndex es ss < es.prod := by
  induction es with
  | nil =>
    intro ss h
    cases ss with
    | nil => simp [rowMajorIndex]
    | cons s ss => simp [inBounds] at h
  | cons e es ih =>
    intro ss h
    cases ss with
    | nil => simp [inBounds] at h
    | cons s ss =>
      simp only [inBounds, Bool.and_eq_true, decide_eq_true_eq] at h
      have h1 := ih ss h.2
      simp only [rowMajorIndex, List.prod_cons]
      calc s * es.prod + rowMajorIndex es ss < s * es.prod + es.prod := by omega
        _ = (s + 1) * es.prod := by ring
        _ ≤ e * es.prod := Nat.mul_le_mul_right _ h.1

theorem rowMajorIndex_injective (es : List Nat) :
    ∀ s1 s2, inBounds es s1 = true → inBounds es s2 = true →
      rowMajorIndex es s1 = rowMajorIndex es s2 → s1 = s2 := by
  induction es with
  | nil =>
    intro s1 s2 h1 h2 _
    cases s1 with
    | nil =>
      cases s2 with
      | nil => rfl
      | cons b bs => simp [inBounds] at h2
    | cons a as => simp [inBounds] at h1
  | cons e es ih =>
    intro s1 s2 h1 h2 heq
    cases s1 with
    | nil => simp [inBounds] at h1
    | cons a as =>
      cases s2 with
      | nil => simp [inBounds] at h2
      | cons b bs =>
        simp only [inBounds, Bool.and_eq_true, decide_eq_true_eq] at h1 h2
        have ha := rowMajorIndex_lt es as h1.2
        have hb := rowMajorIndex_lt es bs h2.2
        simp only [rowMajorIndex] at heq
        have hpos : 0 < es.prod := by omega
        have hdiv : a = b := by
          have e1 : (a * es.prod + rowMajorIndex es as) / es.prod = a := by
            rw [Nat.add_comm, Nat.add_mul_div_right _ _ hpos, Nat.div_eq_of_lt ha, Nat.zero_add]
          have e2 : (b * es.prod + rowMajorIndex es bs) / es.prod = b := by
            rw [Nat.add_comm, Nat.add_mul_div_right _ _ hpos, Nat.div_eq_of_lt hb, Nat.zero_add]
          rw [← e1, ← e2, heq]
        subst hdiv
        have hrest : rowMajorIndex es as = rowMajorIndex es bs := by omega
        rw [ih as bs h1.2 h2.2 hrest]

theorem allocate_space_store (b b1 : NDBuffer) (h : b.allocate_space = .ok b1) :
    b1.dataType = b.dataType ∧
    ∃ w, data_type_to_size b.dataType = .ok w ∧
      b1.dstore = (nelms b.extents * w) % wordMod := by
  unfold NDBuffer.allocate_space at h
  cases hs : data_type_to_size b.dataType with
  | error e => simp [hs] at h
  | ok sz =>
    simp only [hs] at h
    cases h
    exact ⟨rfl, sz, rfl, rfl⟩

theorem data_type_to_size_pos (t : DataType) (w : Nat) (h : data_type_to_size t = .ok w) :
    1 ≤ w := by
  cases t <;> simp [data_type_to_size] at h <;> omega

/-- C18, as stated, fails: the buffer built for the shape `[2^63, 4]` has the
strides `[4, 1]` and an empty store, and it maps the two in-bounds subscripts
`[0, 0]` and `[2^62, 0]` to the same index 0; and the buffer of doubles built
for the shape `[2^61]`, whose element count does not wrap, has a store of 0
bytes while the in-bounds subscript `[5]` has the index 5. -/
theorem sub2index_collision :
    NDBuffer.create .Int8 [2 ^ 63, 4] =
      .ok { dataType := .Int8, extents := [2 ^ 63, 4], strides := [4, 1], dstore := 0 } ∧
    inBounds [2 ^ 63, 4] [0, 0] = true ∧ inBounds [2 ^ 63, 4] [2 ^ 62, 0] = true ∧
    NDBuffer.sub2index
      { dataType := .Int8, extents := [2 ^ 63, 4], strides := [4, 1], dstore := 0 }
      [0, 0] = some 0 ∧
    NDBuffer.sub2index
      { dataType := .Int8, extents := [2 ^ 63, 4], strides := [4, 1], dstore := 0 }
      [2 ^ 62, 0] = some 0 ∧
    NDBuffer.create .Double [2 ^ 61] =
      .ok { dataType := .Double, extents := [2 ^ 61], strides := [1], dstore := 0 } ∧
    inBounds [2 ^ 61] [5] = true ∧
    NDBuffer.sub2index
      { dataType := .Double, extents := [2 ^ 61], strides := [1], dstore := 0 }
      [5] = some 5 := by
  decide

/-- C18, amended: for every buffer built by the constructor or by `resize`
for a shape whose size in bytes, the product of the extents times the byte
width `w` of the element type, is below `2^64`, the element count is that
product and the store has that many bytes; `sub2index` maps every in-bounds
subscript to an index below the element count, the `w` bytes of the element
at that index lie inside the store, and distinct in-bounds subscripts get
distinct indices. -/
theorem sub2index_injective_in_bounds (dims : List Nat) (b : NDBuffer) (w : Nat)
    (hb : (∃ dtype, NDBuffer.create dtype dims = .ok b) ∨
      (∃ b0 : NDBuffer, b0.resize dims = .ok b))
    (hw : data_type_to_size b.dataType = .ok w)
    (hfit : dims.prod * w < wordMod) :
    nelms dims = dims.prod ∧
    b.dstore = dims.prod * w ∧
    (∀ sub, inBounds dims sub = true →
      ∃ idx, b.sub2index sub = some idx ∧ idx < nelms dims ∧ idx * w + w ≤ b.dstore) ∧
    (∀ s1 s2, inBounds dims s1 = true → inBounds dims s2 = true →
      b.sub2index s1 = b.sub2index s2 → s1 = s2) := by
  have hwpos := data_type_to_size_pos b.dataType w hw
  have hprod : dims.prod < wordMod :=
    lt_of_le_of_lt (Nat.le_mul_of_pos_right _ hwpos) hfit
  have hn : nelms dims = dims.prod := by rw [nelms_eq, Nat.mod_eq_of_lt hprod]
  have halloc : ∃ b0 : NDBuffer, b0.extents = dims ∧ b0.allocate_space = .ok b := by
    rcases hb with ⟨dtype, h⟩ | ⟨b0, h⟩
    · exact ⟨_, rfl, h⟩
    · exact ⟨_, rfl, h⟩
  obtain ⟨b0, hext, h0⟩ := halloc
  have hstr : b.strides = calc_strides dims := by
    rw [(allocate_space_ok b0 b h0).1, hext]
  have hstore : b.dstore = dims.prod * w := by
    obtain ⟨hty, w1, hw1, hd⟩ := allocate_space_store b0 b h0
    rw [← hty, hw] at hw1
    cases hw1
    rw [hd, hext, hn, Nat.mod_eq_of_lt hfit]
  have hidx : ∀ sub, inBounds dims sub = true →
      b.sub2index sub = some (rowMajorIndex dims sub) := by
    intro sub hin
    unfold NDBuffer.sub2index
    rw [hstr, dot_calc_strides dims sub (inBounds_length dims sub hin),
      Nat.mod_eq_of_lt (lt_trans (rowMajorIndex_lt dims sub hin) hprod)]
  refine ⟨hn, hstore, ?_, ?_⟩
  · intro sub hin
    have hlt := rowMajorIndex_lt dims sub hin
    refine ⟨_, hidx sub hin, by rw [hn]; exact hlt, ?_⟩
    rw [hstore]
    calc rowMajorIndex dims sub * w + w = (rowMajorIndex dims sub + 1) * w := by ring
      _ ≤ dims.prod * w := Nat.mul_le_mul_right _ hlt
  · intro s1 s2 h1 h2 heq
    rw [hidx s1 h1, hidx s2 h2] at heq
    exact rowMajorIndex_injective dims s1 s2 h1 h2 (Option.some.inj heq)

/-- C18, amended, at the buffer of doubles built for the shape `[2,3,4]`: 24
elements in a store of 192 bytes, the subscript `[1,2,3]` addresses an element
inside the store, and equal indices come from equal subscripts. -/
theorem sub2index_injective_in_bounds_witness :
    nelms [2, 3, 4] = 24 ∧
    (192 : Nat) = 24 * 8 ∧
    (∃ idx, NDBuffer.sub2index
      { dataType := .Double, extents := [2, 3, 4], strides := [12, 4, 1], dstore := 192 }
      [1, 2, 3] = some idx ∧ idx < nelms [2, 3, 4] ∧ idx * 8 + 8 ≤ 192) ∧
    ([1, 2, 3] : List Nat) = [1, 2, 3] :=
  ⟨(sub2index_injective_in_bounds [2, 3, 4]
      { dataType := .Double, extents := [2, 3, 4], strides := [12, 4, 1], dstore := 192 } 8
      (Or.inl ⟨.Double, by decide⟩) (by decide) (by decide)).1,
   (sub2index_injective_in_bounds [2, 3, 4]
      { dataType := .Double, extents := [2, 3, 4], strides := [12, 4, 1], dstore := 192 } 8
      (Or.inl ⟨.Double, by decide⟩) (by decide) (by decide)).2.1,
   (sub2index_injective_in_bounds [2, 3, 4]
      { dataType := .Double, extents := [2, 3, 4], strides := [12, 4, 1], dstore := 192 } 8
      (Or.inl ⟨.Double, by decide⟩) (by decide) (by decide)).2.2.1 [1, 2, 3] (by decide),
   (sub2index_injective_in_bounds [2, 3, 4]
      { dataType := .Double, extents := [2, 3, 4], strides := [12, 4, 1], dstore := 192 } 8
      (Or.inl ⟨.Double, by decide⟩) (by decide) (by decide)).2.2.2 [1, 2, 3] [1, 2, 3]
      (by decide) (by decide) rfl⟩

/-! ## Attributes and datasets of a container (Group.hpp) -/

theorem assocGet_cons {α : Type} (k : String) (a : α) (l : List (String × α)) (name : String) :
    assocGet ((k, a) :: l) name = if k = name then some a else assocGet l name := rfl

theorem assocGet_append {α : Type} (l : List (String × α)) (n m : String) (a : α) :
    assocGet (l ++ [(n, a)]) m =
      match assocGet l m with
      | some x => some x
      | none => if n = m then some a else none := by
  induction l with
  | nil => simp [assocGet]
  | cons x l ih =>
    obtain ⟨k, v⟩ := x
    simp only [List.cons_append, assocGet_cons]
    by_cases hk : k = m
    · simp [hk]
    · simp [hk, ih]

theorem assocGet_replace {α : Type} (l : List (String × α)) (n m : String) (a : α) :
    assocGet (assocReplace l n a) m =
      if m = n then (assocGet l m).map (fun _ => a) else assocGet l m := by
  induction l with
  | nil => simp [assocReplace, assocGet]
  | cons x l ih =>
    obtain ⟨k, v⟩ := x
    unfold assocReplace at ih ⊢
    by_cases hk : k = n
    · subst hk
      simp only [List.map_cons, if_true, assocGet_cons, ih]
      by_cases hm : k = m
      · subst hm
        simp
      · have : ¬ m = k := fun h => hm h.symm
        simp [hm, this]
    · simp only [List.map_cons, hk, if_false, assocGet_cons, ih]
      by_cases hm : k = m
      · subst hm
        simp [hk]
      · simp [hm]

theorem assocReplace_names {α : Type} (l : List (String × α)) (n : String) (a : α) :
    (assocReplace l n a).map Prod.fst = l.map Prod.fst := by
  unfold assocReplace
  rw [List.map_map]
  apply List.map_congr_left
  intro p _
  by_cases h : p.1 = n <;> simp [h]

theorem assocReplace_absent {α : Type} (l : List (String × α)) (n : String) (a : α)
    (h : assocGet l n = none) : assocReplace l n a = l := by
  induction l with
  | nil => rfl
  | cons x l ih =>
    obtain ⟨k, v⟩ := x
    rw [assocGet_cons] at h
    by_cases hk : k = n
    · simp [hk] at h
    · rw [if_neg hk] at h
      unfold assocReplace at ih ⊢
      simp only [List.map_cons, hk, if_false, ih h]

theorem assocReplace_append {α : Type} (l : List (String × α)) (n : String) (a a1 : α)
    (h : assocGet l n = none) :
    assocReplace (l ++ [(n, a)]) n a1 = l ++ [(n, a1)] := by
  have := assocReplace_absent l n a1 h
  unfold assocReplace at this ⊢
  simp [this]

theorem assocGet_mem {α : Type} (l : List (String × α)) (n : String) (a : α)
    (h : assocGet l n = some a) : n ∈ l.map Prod.fst := by
  induction l with
  | nil => simp [assocGet] at h
  | cons x l ih =>
    obtain ⟨k, v⟩ := x
    rw [assocGet_cons] at h
    by_cases hk : k = n
    · simp [hk]
    · rw [if_neg hk] at h
      simp [ih h]

theorem assocGet_none_not_mem {α : Type} (l : List (String × α)) (n : String)
    (h : assocGet l n = none) : n ∉ l.map Prod.fst := by
  induction l with
  | nil => simp
  | cons x l ih =>
    obtain ⟨k, v⟩ := x
    rw [assocGet_cons] at h
    by_cases hk : k = n
    · simp [hk] at h
    · rw [if_neg hk] at h
      have := ih h
      simp only [List.map_cons, List.mem_cons, not_or]
      exact ⟨fun e => hk e.symm, this⟩

theorem convertElems_same (b : Backend) (t : DataType) (elems : List Elem) :
    convertElems b t t elems = elems := by
  simp [convertElems]

/-- C13: for every container and every name without an attribute,
`getAttr(name, dest)` returns false and leaves the destination as it was, not
resized and not written; likewise `getData(name, dest)` for every name without
a dataset. -/
theorem read_absent_key (b : Backend) (c : Container) (name : String) (dest : Value) :
    (hasAttr c name = false → getAttr b c name dest = (dest, .ok false)) ∧
    (hasData c name = false → getData b c name dest = (dest, .ok false)) := by
  constructor
  · intro h
    simp [getAttr, h]
  · intro h
    simp [getData, h]

/-- C13 at the container without attributes and datasets and a destination
of shape `[2]`. -/
theorem read_absent_key_witness :
    getAttr sampleBackend emptyContainer "unit"
        { dtype := .Int32, shape := [2], elems := [.num 7, .num 8] } =
      ({ dtype := .Int32, shape := [2], elems := [.num 7, .num 8] }, .ok false) ∧
    getData sampleBackend emptyContainer "data"
        { dtype := .Int32, shape := [2], elems := [.num 7, .num 8] } =
      ({ dtype := .Int32, shape := [2], elems := [.num 7, .num 8] }, .ok false) :=
  ⟨(read_absent_key sampleBackend emptyContainer "unit"
      { dtype := .Int32, shape := [2], elems := [.num 7, .num 8] }).1 (by decide),
   (read_absent_key sampleBackend emptyContainer "data"
      { dtype := .Int32, shape := [2], elems := [.num 7, .num 8] }).2 (by decide)⟩


theorem hasData_eq_false_iff (c : Container) (n : String) :
    hasData c n = false ↔ assocGet c.datasets n = none := by
  unfold hasData
  cases assocGet c.datasets n <;> simp

theorem hasAttr_eq_false_iff (c : Container) (n : String) :
    hasAttr c n = false ↔ assocGet c.attrs n = none := by
  unfold hasAttr
  cases assocGet c.attrs n <;> simp

/-- What `setData` does for a name without a dataset: it appends the dataset
that holds the value, with an unbounded maximum and a chunk of one element on
every axis. -/
theorem setData_absent (b : Backend) (c : Container) (n : String) (v : Value)
    (h : hasData c n = false) :
    setData b c n v =
      ({ c with datasets := c.datasets ++
          [(n, { dtype := v.dtype, shape := v.shape,
                 maxShape := List.replicate v.shape.length none,
                 chunks := List.replicate v.shape.length 1, elems := v.elems })] },
        .ok ()) := by
  have hnone := (hasData_eq_false_iff c n).mp h
  unfold setData
  simp only [h, Bool.not_false, if_true, DataSet.set, DataSet.create, convertElems_same]
  rw [assocReplace_append _ _ _ _ hnone]

/-- What `getData` does for a name with a dataset. -/
theorem getData_present (b : Backend) (c : Container) (n : String) (dest : Value)
    (ds : DataSet) (h : assocGet c.datasets n = some ds) :
    getData b c n dest =
      ({ dtype := dest.dtype, shape := ds.shape,
         elems := convertElems b ds.dtype dest.dtype ds.elems }, .ok true) := by
  unfold getData hasData
  simp [h, Value.resize]

/-- C15: for every container with no dataset named `n` and every value of
element type `t` and shape `s` of rank `r`, `setData(n, value)` succeeds and
the container then holds under `n` a dataset of type `t` and shape `s` whose
maximum shape is `r` unbounded axes and whose chunk shape is `r` ones, with the
elements of the value; `hasData(n)` holds, `getData(n)` into a destination of
type `t` yields the value, and every other dataset and every attribute is left
as it was. -/
theorem setData_creates (b : Backend) (c : Container) (n : String) (v : Value)
    (h : hasData c n = false) :
    (setData b c n v).2 = .ok () ∧
    assocGet (setData b c n v).1.datasets n =
      some { dtype := v.dtype, shape := v.shape,
             maxShape := List.replicate v.shape.length none,
             chunks := List.replicate v.shape.length 1, elems := v.elems } ∧
    hasData (setData b c n v).1 n = true ∧
    (∀ dest : Value, dest.dtype = v.dtype →
      getData b (setData b c n v).1 n dest = (v, .ok true)) ∧
    (∀ m, m ≠ n → assocGet (setData b c n v).1.datasets m = assocGet c.datasets m) ∧
    (setData b c n v).1.attrs = c.attrs := by
  have hnone := (hasData_eq_false_iff c n).mp h
  have hget : assocGet (setData b c n v).1.datasets n =
      some { dtype := v.dtype, shape := v.shape,
             maxShape := List.replicate v.shape.length none,
             chunks := List.replicate v.shape.length 1, elems := v.elems } := by
    rw [setData_absent b c n v h]
    simp only
    rw [assocGet_append, hnone]
    simp
  refine ⟨by rw [setData_absent b c n v h], hget, ?_, ?_, ?_, by rw [setData_absent b c n v h]⟩
  · unfold hasData
    rw [hget]
    rfl
  · intro dest hd
    rw [getData_present b _ n dest _ hget]
    simp only [hd, convertElems_same]
  · intro m hm
    rw [setData_absent b c n v h]
    simp only
    rw [assocGet_append]
    have : ¬ n = m := fun e => hm e.symm
    cases hg : assocGet c.datasets m <;> simp [this]

/-- C15 at the container without datasets and a `2 x 2` value of doubles. -/
theorem setData_creates_witness :
    assocGet (setData sampleBackend emptyContainer "data" squareValue).1.datasets "data" =
      some { dtype := .Double, shape := [2, 2], maxShape := [none, none], chunks := [1, 1],
             elems := [.num 1, .num 2, .num 3, .num 4] } ∧
    getData sampleBackend (setData sampleBackend emptyContainer "data" squareValue).1 "data"
      { dtype := .Double, shape := [], elems := [] } = (squareValue, .ok true) :=
  ⟨(setData_creates sampleBackend emptyContainer "data" squareValue (by decide)).2.1,
   (setData_creates sampleBackend emptyContainer "data" squareValue (by decide)).2.2.2.1
      { dtype := .Double, shape := [], elems := [] } rfl⟩

theorem withinMax_unbounded (s : List Nat) :
    withinMax (List.replicate s.length none) s = true := by
  induction s with
  | nil => rfl
  | cons x s ih => simpa [withinMax, List.replicate_succ] using ih

/-- What `setData` does for a name with a dataset that can take the shape of
the value: the dataset is extended and rewritten in place. -/
theorem setData_present_ok (b : Backend) (c : Container) (n : String) (v : Value)
    (ds : DataSet) (hget : assocGet c.datasets n = some ds)
    (hle : shapeLe ds.shape v.shape = true) (hmax : withinMax ds.maxShape v.shape = true) :
    setData b c n v =
      (Container.mk c.attrs
        (assocReplace
          (assocReplace c.datasets n
            (DataSet.mk ds.dtype v.shape ds.maxShape ds.chunks
              (relayout ds.shape v.shape ds.elems (fillElem ds.dtype))))
          n (DataSet.mk ds.dtype v.shape ds.maxShape ds.chunks
              (convertElems b v.dtype ds.dtype v.elems))),
        .ok ()) := by
  have hhas : hasData c n = true := by
    unfold hasData
    rw [hget]
    rfl
  unfold setData
  simp [hhas, hget, DataSet.extend, hle, hmax, DataSet.set]

/-- What `setData` does for a name with a dataset that cannot take the shape
of the value: it fails with InvalidResize and leaves the container as it
was. -/
theorem setData_present_invalid (b : Backend) (c : Container) (n : String) (v : Value)
    (ds : DataSet) (hget : assocGet c.datasets n = some ds)
    (hbad : (shapeLe ds.shape v.shape && withinMax ds.maxShape v.shape) = false) :
    setData b c n v = (c, .error (.exception "InvalidResize")) := by
  have hhas : hasData c n = true := by
    unfold hasData
    rw [hget]
    rfl
  unfold setData
  simp only [hhas, Bool.not_true, Bool.false_eq_true, if_false, hget, DataSet.extend, hbad]

/-- C16, as stated, fails: a container holds the dataset "data" of shape `[5]`
with the maximum `[8]`; for a value of shape `[10]`, of the same rank and not
smaller on any axis, `setData` fails with InvalidResize. -/
theorem setData_beyond_maximum :
    assocGet boundedContainer.datasets "data" =
      some { dtype := .Int32, shape := [5], maxShape := [some 8], chunks := [1],
             elems := [.num 0, .num 0, .num 0, .num 0, .num 0] } ∧
    tenValue.shape = [10] ∧ shapeLe [5] [10] = true ∧
    setData sampleBackend boundedContainer "data" tenValue =
      (boundedContainer, .error (.exception "InvalidResize")) := by
  decide

/-- C16, amended: for every container that has a dataset named `n` with
current shape `c`, and every value whose shape `s` has the same rank, `s[i] >=
c[i]` on every axis and `s[i] <= max[i]` on every axis with a maximum,
`setData(n, value)` succeeds and reuses the dataset: element type, maximum
shape and chunk shape are as before, the shape is `s`, the contents are the
elements of the value, handed over to the element type of the dataset, and no
other dataset and no attribute changes.  When the shape is smaller on some
axis, or the ranks differ, or a maximum is exceeded, the call fails with
InvalidResize and changes nothing.  A dataset whose maximum is unbounded on
every axis, as `setData` creates it, has no maximum to exceed. -/
theorem setData_extends (b : Backend) (c : Container) (n : String) (v : Value)
    (ds : DataSet) (hget : assocGet c.datasets n = some ds) :
    (shapeLe ds.shape v.shape = true → withinMax ds.maxShape v.shape = true →
      (setData b c n v).2 = .ok () ∧
      assocGet (setData b c n v).1.datasets n =
        some { dtype := ds.dtype, shape := v.shape, maxShape := ds.maxShape,
               chunks := ds.chunks, elems := convertElems b v.dtype ds.dtype v.elems } ∧
      (v.dtype = ds.dtype →
        assocGet (setData b c n v).1.datasets n =
          some { dtype := ds.dtype, shape := v.shape, maxShape := ds.maxShape,
                 chunks := ds.chunks, elems := v.elems }) ∧
      (∀ m, m ≠ n → assocGet (setData b c n v).1.datasets m = assocGet c.datasets m) ∧
      (setData b c n v).1.attrs = c.attrs) ∧
    (shapeLe ds.shape v.shape = false →
      setData b c n v = (c, .error (.exception "InvalidResize"))) ∧
    (withinMax ds.maxShape v.shape = false →
      setData b c n v = (c, .error (.exception "InvalidResize"))) ∧
    (ds.maxShape = List.replicate ds.shape.length none → shapeLe ds.shape v.shape = true →
      (setData b c n v).2 = .ok ()) := by
  have hok : shapeLe ds.shape v.shape = true → withinMax ds.maxShape v.shape = true →
      (setData b c n v).2 = .ok () ∧
      assocGet (setData b c n v).1.datasets n =
        some { dtype := ds.dtype, shape := v.shape, maxShape := ds.maxShape,
               chunks := ds.chunks, elems := convertElems b v.dtype ds.dtype v.elems } ∧
      (∀ m, m ≠ n → assocGet (setData b c n v).1.datasets m = assocGet c.datasets m) ∧
      (setData b c n v).1.attrs = c.attrs := by
    intro hle hmax
    rw [setData_present_ok b c n v ds hget hle hmax]
    refine ⟨rfl, ?_, ?_, rfl⟩
    · simp [assocGet_replace, hget]
    · intro m hm
      simp [assocGet_replace, hm]
  refine ⟨?_, ?_, ?_, ?_⟩
  · intro hle hmax
    obtain ⟨h1, h2, h3, h4⟩ := hok hle hmax
    refine ⟨h1, h2, ?_, h3, h4⟩
    intro ht
    rw [h2, ht, convertElems_same]
  · intro hbad
    exact setData_present_invalid b c n v ds hget (by simp [hbad])
  · intro hbad
    exact setData_present_invalid b c n v ds hget (by simp [hbad])
  · intro hmaxeq hle
    have hlen : ∀ (cs ss : List Nat), shapeLe cs ss = true → cs.length = ss.length := by
      intro cs
      induction cs with
      | nil =>
        intro ss h
        cases ss with
        | nil => rfl
        | cons s ss => simp [shapeLe] at h
      | cons x cs ih =>
        intro ss h
        cases ss with
        | nil => simp [shapeLe] at h
        | cons s ss =>
          simp only [shapeLe, Bool.and_eq_true] at h
          simp [ih ss h.2]
    have hmax : withinMax ds.maxShape v.shape = true := by
      rw [hmaxeq, hlen _ _ hle]
      exact withinMax_unbounded v.shape
    exact (hok hle hmax).1

/-- C16, amended, at the `2 x 2` dataset that `setData` created, written
again with a `2 x 3` value and with a `1 x 3` value. -/
theorem setData_extends_witness :
    assocGet (setData sampleBackend squareContainer "data" wideValue).1.datasets "data" =
      some { dtype := .Double, shape := [2, 3], maxShape := [none, none], chunks := [1, 1],
             elems := [.num 1, .num 2, .num 3, .num 4, .num 5, .num 6] } ∧
    setData sampleBackend squareContainer "data" flatValue =
      (squareContainer, .error (.exception "InvalidResize")) :=
  ⟨((setData_extends sampleBackend squareContainer "data" wideValue squareData
      (by decide)).1 (by decide) (by decide)).2.2.1 rfl,
   (setData_extends sampleBackend squareContainer "data" flatValue squareData
      (by decide)).2.1 (by decide)⟩

/-- What `setAttr` leaves behind when the name is free or holds an attribute of
the element kind and shape of the value, for a value of a numeric element
type: the call succeeds, the name holds the value, the names stay pairwise
different, every other attribute and every dataset is as before. -/
theorem setAttr_post (b : Backend) (c : Container) (n : String) (v : Value)
    (hnum : v.dtype ≠ .Text) (hnd : (c.attrs.map Prod.fst).Nodup)
    (hpre : hasAttr c n = false ∨
      ∃ a, assocGet c.attrs n = some a ∧ a.shape = v.shape ∧ a.fileType.kind = v.dtype) :
    (setAttr b c n v).2 = .ok () ∧
    (∃ ft : H5Type, ft.kind = v.dtype ∧
      assocGet (setAttr b c n v).1.attrs n =
        some { fileType := ft, shape := v.shape, elems := v.elems }) ∧
    ((setAttr b c n v).1.attrs.map Prod.fst).Nodup ∧
    (∀ m, m ≠ n → assocGet (setAttr b c n v).1.attrs m = assocGet c.attrs m) ∧
    (setAttr b c n v).1.datasets = c.datasets := by
  obtain ⟨⟨ft, hft, hftk⟩, ⟨mt, hmt, hmtk⟩, _⟩ := catalog_numeric v.dtype hnum
  rcases hpre with habs | ⟨a, hget, hshape, hkind⟩
  · have hnone := (hasAttr_eq_false_iff c n).mp habs
    have hfresh : ∀ x : Attribute, assocGet (c.attrs ++ [(n, x)]) n = some x := by
      intro x
      rw [assocGet_append, hnone]
      simp
    have hrun : setAttr b c n v =
        (Container.mk (c.attrs ++ [(n, Attribute.mk ft v.shape v.elems)]) c.datasets,
          .ok ()) := by
      unfold setAttr
      simp only [habs, Bool.false_eq_true, if_false, hft, hmt, writeAttr, createAttribute,
        hfresh, ne_eq, not_true_eq_false, if_true, hmtk, hftk, convertElems_same]
      rw [assocReplace_append _ _ _ _ hnone]
    rw [hrun]
    refine ⟨rfl, ⟨ft, hftk, hfresh _⟩, ?_, ?_, rfl⟩
    · simp only [List.map_append, List.map_cons, List.map_nil]
      rw [List.nodup_append]
      refine ⟨hnd, by simp, ?_⟩
      intro x hx hx2
      simp only [List.mem_singleton] at hx2
      exact assocGet_none_not_mem c.attrs n hnone (hx2 ▸ hx)
    · intro m hm
      simp only
      rw [assocGet_append]
      have : ¬ n = m := fun e => hm e.symm
      cases assocGet c.attrs m <;> simp [this]
  · have hhas : hasAttr c n = true := by
      unfold hasAttr
      rw [hget]
      rfl
    have hrun : setAttr b c n v =
        (Container.mk (assocReplace c.attrs n (Attribute.mk a.fileType a.shape v.elems))
          c.datasets, .ok ()) := by
      unfold setAttr
      simp only [hhas, if_true, hmt, writeAttr, hget, hshape, ne_eq, not_true_eq_false,
        if_false, hmtk, hkind, convertElems_same]
    rw [hrun]
    refine ⟨rfl, ⟨a.fileType, hkind, ?_⟩, ?_, ?_, rfl⟩
    · simp [assocGet_replace, hget, hshape]
    · simp only
      rw [assocReplace_names]
      exact hnd
    · intro m hm
      simp [assocGet_replace, hm]

/-- What `getAttr` does for a name with an attribute and a destination of a
numeric element type. -/
theorem getAttr_present (b : Backend) (c : Container) (n : String) (dest : Value)
    (a : Attribute) (h : assocGet c.attrs n = some a) (hnum : dest.dtype ≠ .Text) :
    getAttr b c n dest =
      ({ dtype := dest.dtype, shape := a.shape,
         elems := convertElems b a.fileType.kind dest.dtype a.elems }, .ok true) := by
  obtain ⟨_, ⟨mt, hmt, hmtk⟩, _⟩ := catalog_numeric dest.dtype hnum
  unfold getAttr hasAttr
  simp [h, Value.resize, hmt, hmtk]

/-- With a value whose rank differs from the rank of the stored attribute and
whose element type is numeric, `setAttr` fails with ShapeMismatch and leaves
the container as it was. -/
theorem setAttr_rank_mismatch (b : Backend) (c : Container) (n : String) (v : Value)
    (a : Attribute) (h : assocGet c.attrs n = some a) (hnum : v.dtype ≠ .Text)
    (hrank : v.shape.length ≠ a.shape.length) :
    setAttr b c n v = (c, .error (.exception "ShapeMismatch")) := by
  obtain ⟨_, ⟨mt, hmt, _⟩, _⟩ := catalog_numeric v.dtype hnum
  have hhas : hasAttr c n = true := by
    unfold hasAttr
    rw [h]
    rfl
  unfold setAttr
  simp only [hhas, if_true, hmt, writeAttr, h, ne_eq, hrank, not_false_eq_true]


/-- C12, as stated, fails: in a container whose attribute "gain" holds two
integers, setting "gain" to the scalar 1 and then to the scalar 2 fails twice
with ShapeMismatch and `getAttr` still yields the two integers; and in the
empty container setting "unit" to the text "mV" throws "Unkown DataType" and
creates no attribute. -/
theorem setAttr_overwrite_fails :
    setAttr sampleBackend gainContainer "gain" (intScalar 1) =
      (gainContainer, .error (.exception "ShapeMismatch")) ∧
    setAttr sampleBackend gainContainer "gain" (intScalar 2) =
      (gainContainer, .error (.exception "ShapeMismatch")) ∧
    getAttr sampleBackend gainContainer "gain" (intScalar 0) =
      ({ dtype := .Int32, shape := [2], elems := [.num 5, .num 6] }, .ok true) ∧
    setAttr sampleBackend emptyContainer "unit" (textScalar "mV") =
      (emptyContainer, .error (.exception "Unkown DataType")) ∧
    hasAttr emptyContainer "unit" = false := by
  decide

/-- C12, amended: for every container with pairwise different attribute
names, every name `n` that is free or holds an attribute of the element kind
and shape of `v1`, and all values `v1`, `v2` of the same numeric element type
and the same shape, `setAttr(n, v1)` and then `setAttr(n, v2)` both succeed,
the container then has exactly one attribute named `n`, `getAttr(n)` into a
destination of that element type yields `v2`, and every attribute with
another name and every dataset is as before. -/
theorem setAttr_overwrite (b : Backend) (c : Container) (n : String) (v1 v2 : Value)
    (hwf : c.WF) (hnum : v1.dtype ≠ .Text) (ht : v2.dtype = v1.dtype)
    (hs : v2.shape = v1.shape)
    (hpre : hasAttr c n = false ∨
      ∃ a, assocGet c.attrs n = some a ∧ a.shape = v1.shape ∧ a.fileType.kind = v1.dtype) :
    (setAttr b c n v1).2 = .ok () ∧
    (setAttr b (setAttr b c n v1).1 n v2).2 = .ok () ∧
    ((setAttr b (setAttr b c n v1).1 n v2).1.attrs.map Prod.fst).count n = 1 ∧
    (∀ dest : Value, dest.dtype = v2.dtype →
      getAttr b (setAttr b (setAttr b c n v1).1 n v2).1 n dest = (v2, .ok true)) ∧
    (∀ m, m ≠ n →
      assocGet (setAttr b (setAttr b c n v1).1 n v2).1.attrs m = assocGet c.attrs m) ∧
    (setAttr b (setAttr b c n v1).1 n v2).1.datasets = c.datasets := by
  have hnum2 : v2.dtype ≠ .Text := by rw [ht]; exact hnum
  obtain ⟨hok1, ⟨ft1, hk1, hget1⟩, hnd1, hframe1, hds1⟩ :=
    setAttr_post b c n v1 hnum hwf.1 hpre
  obtain ⟨hok2, ⟨ft2, hk2, hget2⟩, hnd2, hframe2, hds2⟩ :=
    setAttr_post b (setAttr b c n v1).1 n v2 hnum2 hnd1
      (Or.inr ⟨_, hget1, hs.symm, by rw [hk1, ht]⟩)
  refine ⟨hok1, hok2, ?_, ?_, ?_, by rw [hds2, hds1]⟩
  · exact List.count_eq_one_of_mem hnd2 (assocGet_mem _ n _ hget2)
  · intro dest hd
    rw [getAttr_present b _ n dest _ hget2 (by rw [hd]; exact hnum2)]
    simp only [hk2, hd, convertElems_same]
  · intro m hm
    rw [hframe2 m hm, hframe1 m hm]

/-- C12, amended, at the empty container: setting "gain" to 1 and then to 2
leaves exactly one attribute "gain", with the value 2. -/
theorem setAttr_overwrite_witness :
    ((setAttr sampleBackend (setAttr sampleBackend emptyContainer "gain" (intScalar 1)).1
      "gain" (intScalar 2)).1.attrs.map Prod.fst).count "gain" = 1 ∧
    getAttr sampleBackend
      (setAttr sampleBackend (setAttr sampleBackend emptyContainer "gain" (intScalar 1)).1
        "gain" (intScalar 2)).1 "gain" (intScalar 0) = (intScalar 2, .ok true) :=
  ⟨(setAttr_overwrite sampleBackend emptyContainer "gain" (intScalar 1) (intScalar 2)
      (by decide) (by decide) rfl rfl (Or.inl (by decide))).2.2.1,
   (setAttr_overwrite sampleBackend emptyContainer "gain" (intScalar 1) (intScalar 2)
      (by decide) (by decide) rfl rfl (Or.inl (by decide))).2.2.2.1 (intScalar 0) rfl⟩

/-- C14: the attribute "gain" is stored with the shape `[2]`; `setAttr` with a
scalar text, a value of another rank, throws "Unkown DataType", not
ShapeMismatch, and leaves the container as it was; with a scalar integer it
fails with ShapeMismatch. -/
theorem setAttr_text_other_rank :
    assocGet gainContainer.attrs "gain" =
      some { fileType := .STD_I32LE, shape := [2], elems := [.num 5, .num 6] } ∧
    (textScalar "V").shape = [] ∧
    setAttr sampleBackend gainContainer "gain" (textScalar "V") =
      (gainContainer, .error (.exception "Unkown DataType")) ∧
    setAttr sampleBackend gainContainer "gain" (intScalar 1) =
      (gainContainer, .error (.exception "ShapeMismatch")) := by
  decide

end Nix
